import Mathlib

/-!
A verification development for the blueprint serialization core of the
`factorio-draftsman` repository (`draftsman/classes/blueprint.py`,
`draftsman/signatures.py` and their collaborators).

The Python code is shallowly embedded: dictionaries become structures,
in-place mutation becomes explicit value passing, raised exceptions become
`Except` errors, and Python floats (which here only ever hold small exact
values: positions, color channels) become rationals.  Collaborator modules
that are part of the repository but not present in this excerpt
(`draftsman/utils.py`, `draftsman/classes/association.py`,
`draftsman/classes/entity_list.py`, `draftsman/classes/spatial_hashmap.py`,
`draftsman/classes/entity.py`, `draftsman/classes/exportable.py`) are
modelled from the specification; each such definition carries a doc comment
starting with "Modelled from the spec:".
-/

namespace Draftsman

/-- Decidable equality of `Except` results, used to evaluate the embedded
functions on concrete inputs. -/
instance {ε α : Type} [DecidableEq ε] [DecidableEq α] : DecidableEq (Except ε α) :=
  fun x y =>
    match x, y with
    | .ok a, .ok b =>
      if h : a = b then .isTrue (by rw [h]) else .isFalse (by intro hc; cases hc; exact h rfl)
    | .error a, .error b =>
      if h : a = b then .isTrue (by rw [h]) else .isFalse (by intro hc; cases hc; exact h rfl)
    | .ok _, .error _ => .isFalse (by intro hc; cases hc)
    | .error _, .ok _ => .isFalse (by intro hc; cases hc)

/-- A 2D position with rational coordinates, embedding the float positions
of entities (`{"x": float, "y": float}`). -/
structure PosQ where
  x : ℚ
  y : ℚ
deriving DecidableEq, Repr

/-- A 2D position with integer coordinates, embedding `IntPosition`
(`signatures.py`): tile positions and the snapping-grid vectors. -/
structure Vec2 where
  x : Int
  y : Int
deriving DecidableEq, Repr

/-- The identity-and-value core of an in-memory `Entity` object.  `pyid`
embeds Python object identity (`id(entity)`); the remaining fields are the
entity's value.  `tags` stands in for the kind-specific attribute payload
that distinguishes otherwise identical entities. -/
structure EntityCore where
  pyid : Nat
  name : String
  position : PosQ
  tags : Option String
deriving DecidableEq, Repr

/-- An `entity_id` slot of a connection point.  Before `Blueprint.setup`
converts it, it holds the external 1-based integer (`num`); afterwards it
holds an `Association`.

Modelled from the spec: `classes/association.py` is not under `src/`.  Per
the spec, an Association is "a callable that dereferences to `None` once the
target is destroyed" (a `weakref.ref` subclass): `assoc none` is an
Association whose referent was destroyed, `assoc (some c)` one whose live
referent has core `c`. -/
inductive Ref where
  | num (k : Nat)
  | assoc (a : Option EntityCore)
deriving DecidableEq, Repr

/-- Embeds `signatures.CircuitConnectionPoint` (`{entity_id, circuit_id}`). -/
structure CircuitConnPoint where
  entityId : Ref
  circuitId : Option Nat
deriving DecidableEq, Repr

/-- Embeds `signatures.WireConnectionPoint` (`{entity_id, wire_id}`). -/
structure WireConnPoint where
  entityId : Ref
  wireId : Option Nat
deriving DecidableEq, Repr

/-- Embeds `signatures.Connections.CircuitConnections` (`red`/`green`). -/
structure CircuitConnections where
  red : Option (List CircuitConnPoint)
  green : Option (List CircuitConnPoint)
deriving DecidableEq, Repr

/-- Embeds `signatures.Connections`: wire sides `"1"`, `"2"` and copper
sides `"Cu0"`, `"Cu1"`. -/
structure Connections where
  wr1 : Option CircuitConnections
  wr2 : Option CircuitConnections
  cu0 : Option (List WireConnPoint)
  cu1 : Option (List WireConnPoint)
deriving DecidableEq, Repr

/-- An in-memory primitive entity: its core plus the reference-carrying
fields that `_normalize_internal_structure` rewrites at export
(`connections` and `neighbours`). -/
structure Entity where
  core : EntityCore
  connections : Option Connections
  neighbours : Option (List Ref)
deriving DecidableEq, Repr

/-- An `EntityLike` as held by a Blueprint's entity list: either a primitive
entity or a composite `Group` of further EntityLikes. -/
inductive EntityLike where
  | prim (e : Entity)
  | group (children : List EntityLike)

mutual

/-- The primitive entities of one `EntityLike`, in order. -/
def flatten_entity_like : EntityLike → List Entity
  | .prim e => [e]
  | .group cs => flatten_entities cs

/-- Modelled from the spec: `utils.flatten_entities` is not under `src/`.
Per spec section 4.3 it recursively expands any composite/group objects into
a single flat ordered sequence of primitive entities. -/
def flatten_entities : List EntityLike → List Entity
  | [] => []
  | c :: rest => flatten_entity_like c ++ flatten_entities rest

end

mutual

/-- Decidable equality of `EntityLike` values (the automatic derivation
does not handle the nested list). -/
def entityLikeDecEq : (a b : EntityLike) → Decidable (a = b)
  | .prim a, .prim b =>
    match decEq a b with
    | .isTrue h => .isTrue (by rw [h])
    | .isFalse h => .isFalse (by intro hc; cases hc; exact h rfl)
  | .group as, .group bs =>
    match entityLikeListDecEq as bs with
    | .isTrue h => .isTrue (by rw [h])
    | .isFalse h => .isFalse (by intro hc; cases hc; exact h rfl)
  | .prim _, .group _ => .isFalse (by intro hc; cases hc)
  | .group _, .prim _ => .isFalse (by intro hc; cases hc)

/-- Decidable equality of `EntityLike` lists. -/
def entityLikeListDecEq : (as bs : List EntityLike) → Decidable (as = bs)
  | [], [] => .isTrue rfl
  | a :: as, b :: bs =>
    match entityLikeDecEq a b, entityLikeListDecEq as bs with
    | .isTrue h1, .isTrue h2 => .isTrue (by rw [h1, h2])
    | .isFalse h1, _ => .isFalse (by intro hc; cases hc; exact h1 rfl)
    | _, .isFalse h2 => .isFalse (by intro hc; cases hc; exact h2 rfl)
  | [], _ :: _ => .isFalse (by intro hc; cases hc)
  | _ :: _, [] => .isFalse (by intro hc; cases hc)

end

instance : DecidableEq EntityLike := entityLikeDecEq

/-- A tile record: `{"name": str, "position": {"x": int, "y": int}}`.  The
in-memory `Tile` and its exported dict carry the same data. -/
structure Tile where
  name : String
  position : Vec2
deriving DecidableEq, Repr

/-- A wait condition of a schedule stop (pass-through payload). -/
structure WaitCondition where
  condType : String
  compareType : String
  ticks : Option Int
deriving DecidableEq, Repr

/-- A schedule stop record (`{"station", "wait_conditions"}`). -/
structure Stop where
  station : String
  waitConditions : List WaitCondition
deriving DecidableEq, Repr

/-- An in-memory `Schedule`: stop records plus locomotive references. -/
structure Schedule where
  stops : List Stop
  locomotives : List Ref
deriving DecidableEq, Repr

/-! External (exported/imported) representation: the nested mapping form of
a blueprint, with 1-based integer entity references. -/

/-- An exported circuit connection point with a resolved integer id. -/
structure ExtCircuitConnPoint where
  entityId : Nat
  circuitId : Option Nat
deriving DecidableEq, Repr

/-- An exported copper connection point with a resolved integer id. -/
structure ExtWireConnPoint where
  entityId : Nat
  wireId : Option Nat
deriving DecidableEq, Repr

/-- Exported circuit connections of one side. -/
structure ExtCircuitConnections where
  red : Option (List ExtCircuitConnPoint)
  green : Option (List ExtCircuitConnPoint)
deriving DecidableEq, Repr

/-- Exported `connections` value. -/
structure ExtConnections where
  wr1 : Option ExtCircuitConnections
  wr2 : Option ExtCircuitConnections
  cu0 : Option (List ExtWireConnPoint)
  cu1 : Option (List ExtWireConnPoint)
deriving DecidableEq, Repr

/-- A flattened, exported entity record. -/
structure ExtEntity where
  entityNumber : Nat
  name : String
  position : PosQ
  tags : Option String
  connections : Option ExtConnections
  neighbours : Option (List Nat)
deriving DecidableEq, Repr

/-- An exported schedule record (`{"schedule": [...], "locomotives": [...]}`). -/
structure ExtSchedule where
  stops : List Stop
  locomotives : List Nat
deriving DecidableEq, Repr

/-- A `label_color` value: `{r, g, b}` with optional `a`. -/
structure ColorDict where
  r : ℚ
  g : ℚ
  b : ℚ
  a : Option ℚ
deriving DecidableEq, Repr

/-- An icon entry: `{signal: {name, type}, index}`. -/
structure IconDict where
  signalName : String
  signalType : String
  index : Nat
deriving DecidableEq, Repr

/-- The external representation of a blueprint: the value of the
`"blueprint"` key plus the sibling `"index"` key.  `none` embeds the absence
of the corresponding key from the mapping. -/
structure ExtBlueprint where
  label : Option String
  labelColor : Option ColorDict
  description : Option String
  icons : Option (List IconDict)
  version : Option Nat
  snapToGrid : Option Vec2
  absoluteSnapping : Option Bool
  positionRelativeToGrid : Option Vec2
  entities : Option (List ExtEntity)
  tiles : Option (List Tile)
  schedules : Option (List ExtSchedule)
  index : Option Nat
deriving DecidableEq, Repr

/-- The in-memory `Blueprint` state relevant to import/export: scalar
metadata (including the three private snapping-grid vectors) plus the
entity, tile and schedule lists. -/
structure Blueprint where
  label : Option String
  labelColor : Option ColorDict
  description : Option String
  icons : Option (List IconDict)
  version : Option Nat
  snapToGrid : Vec2
  snappingGridPosition : Vec2
  absoluteSnapping : Option Bool
  positionRelativeToGrid : Vec2
  entities : List EntityLike
  tiles : List Tile
  schedules : List Schedule
  index : Option Nat
deriving DecidableEq

/-! The export pipeline: `_normalize_internal_structure` and
`Blueprint.to_dict`. -/

/-- The exceptions `to_dict` can propagate, by Python exception class.
`invalidAssociation name position` embeds
`InvalidAssociationError("'<name>' at <position> is connected to an entity
that no longer exists")` raised by `_throw_invalid_association`;
`typeError` embeds a `TypeError` raised by applying a non-callable or
subscripting a non-subscriptable object; `valueError` embeds the
`ValueError` of `list.index` when the item is not found. -/
inductive ExportError where
  | invalidAssociation (name : String) (position : PosQ)
  | typeError
  | valueError
deriving DecidableEq, Repr

/-- Modelled from the spec: `Entity.__eq__` (`classes/entity.py`, not under
`src/`) is value equality between entities of the same class — two distinct
objects with equal fields compare equal, and a differing `tags` payload
makes them unequal (exercised by `test_eq` in
`src/test/prototypes/test_electric_pole.py`).  Object identity (`pyid`) is
not part of the value. -/
def coreEq (a b : EntityCore) : Bool :=
  a.name == b.name && a.position == b.position && a.tags == b.tags

/-- CPython `list.index(target)` semantics, as used in
`flattened_entities.index(old())`: the index of the first element that is
identical to (`is`) or compares equal to (`==`) the target; `none` embeds
the `ValueError` raised when no element matches. -/
def pyListIndex (flat : List Entity) (target : EntityCore) : Option Nat :=
  List.findIdx? (fun e => e.core.pyid == target.pyid || coreEq e.core target) flat

/-- Resolution of one wire-connection or neighbour reference during
`_normalize_internal_structure`: `old = point["entity_id"]`; `old()` being
`None` triggers `_throw_invalid_association(entity)` where `entity` is the
exported dict of the *containing* entity (hence its name and position);
otherwise the reference becomes `flattened_entities.index(old()) + 1`.
Calling a leftover integer (`.num`) is a `TypeError` (an `int` is not
callable). -/
def resolveWireRef (flat : List Entity) (ownerName : String) (ownerPos : PosQ) :
    Ref → Except ExportError Nat
  | .num _ => .error .typeError
  | .assoc none => .error (.invalidAssociation ownerName ownerPos)
  | .assoc (some c) =>
    match pyListIndex flat c with
    | some i => .ok (i + 1)
    | none => .error .valueError

/-- Resolution of one locomotive reference: the same `locomotive() is None`
test, but on failure the code calls `_throw_invalid_association(locomotive)`
with the Association object itself, and `locomotive["name"]` inside the
error formatting raises a `TypeError` (a weak reference is not
subscriptable) before any `InvalidAssociationError` is constructed. -/
def resolveLocomotiveRef (flat : List Entity) : Ref → Except ExportError Nat
  | .num _ => .error .typeError
  | .assoc none => .error .typeError
  | .assoc (some c) =>
    match pyListIndex flat c with
    | some i => .ok (i + 1)
    | none => .error .valueError

/-- Resolve every point of one circuit connection side. -/
def resolveCircuitPoints (flat : List Entity) (ownerName : String) (ownerPos : PosQ)
    (points : List CircuitConnPoint) : Except ExportError (List ExtCircuitConnPoint) :=
  points.mapM fun p => do
    let k ← resolveWireRef flat ownerName ownerPos p.entityId
    return { entityId := k, circuitId := p.circuitId }

/-- Resolve every point of one copper connection side. -/
def resolveWirePoints (flat : List Entity) (ownerName : String) (ownerPos : PosQ)
    (points : List WireConnPoint) : Except ExportError (List ExtWireConnPoint) :=
  points.mapM fun p => do
    let k ← resolveWireRef flat ownerName ownerPos p.entityId
    return { entityId := k, wireId := p.wireId }

/-- Resolve one `CircuitConnections` value (`red`/`green`). -/
def resolveCircuitConnections (flat : List Entity) (ownerName : String) (ownerPos : PosQ)
    (c : CircuitConnections) : Except ExportError ExtCircuitConnections := do
  let red ← c.red.mapM (resolveCircuitPoints flat ownerName ownerPos)
  let green ← c.green.mapM (resolveCircuitPoints flat ownerName ownerPos)
  return { red := red, green := green }

/-- Resolve a whole `connections` value: sides `"1"`/`"2"` hold circuit
points, sides `"Cu0"`/`"Cu1"` hold copper points. -/
def resolveConnections (flat : List Entity) (ownerName : String) (ownerPos : PosQ)
    (c : Connections) : Except ExportError ExtConnections := do
  let wr1 ← c.wr1.mapM (resolveCircuitConnections flat ownerName ownerPos)
  let wr2 ← c.wr2.mapM (resolveCircuitConnections flat ownerName ownerPos)
  let cu0 ← c.cu0.mapM (resolveWirePoints flat ownerName ownerPos)
  let cu1 ← c.cu1.mapM (resolveWirePoints flat ownerName ownerPos)
  return { wr1 := wr1, wr2 := wr2, cu0 := cu0, cu1 := cu1 }

/-- The exported dict of one flattened entity, with its assigned
`entity_number` and all of its references resolved against the flattened
list.  Modelled from the spec for the `entity.to_dict()` part
(`classes/entity.py` is not under `src/`): the dict carries the entity's
name, position and kind-specific payload, plus `connections`/`neighbours`
exactly when set. -/
def exportEntity (flat : List Entity) (e : Entity) (number : Nat) :
    Except ExportError ExtEntity := do
  let conns ← e.connections.mapM (resolveConnections flat e.core.name e.core.position)
  let neighbours ← e.neighbours.mapM fun ns =>
    ns.mapM (resolveWireRef flat e.core.name e.core.position)
  return { entityNumber := number, name := e.core.name, position := e.core.position,
           tags := e.core.tags, connections := conns, neighbours := neighbours }

/-- Export one enumerated flattened entity: the entity at flattened
position `p.1` receives entity number `p.1 + 1`. -/
def exportEnumEntity (flat : List Entity) (p : Nat × Entity) :
    Except ExportError ExtEntity :=
  exportEntity flat p.2 (p.1 + 1)

/-- The exported dict of one schedule (`schedule.to_dict()` emits the stop
records and the locomotive Associations verbatim), with every locomotive
Association then replaced by `flattened_entities.index(locomotive()) + 1`. -/
def exportSchedule (flat : List Entity) (s : Schedule) :
    Except ExportError ExtSchedule := do
  let locos ← s.locomotives.mapM (resolveLocomotiveRef flat)
  return { stops := s.stops, locomotives := locos }

/-- Embeds `_normalize_internal_structure` (`blueprint.py`): flatten the
entity list, assign `entity_number := i + 1` in flattened order, resolve
every wire/neighbour Association to `flattened_entities.index(old()) + 1`,
serialize tiles and schedules directly (they are not flattened), and
resolve every locomotive Association likewise.  The first error raised
aborts the conversion. -/
def normalize_internal_structure (entitiesIn : List EntityLike) (tilesIn : List Tile)
    (schedulesIn : List Schedule) :
    Except ExportError (List ExtEntity × List Tile × List ExtSchedule) := do
  let flat := flatten_entities entitiesIn
  let entitiesOut ← flat.enum.mapM (exportEnumEntity flat)
  let tilesOut := tilesIn
  let schedulesOut ← schedulesIn.mapM (exportSchedule flat)
  return (entitiesOut, tilesOut, schedulesOut)

/-- Modelled from the spec: `utils.encode_version` is not under `src/`.
The version is "a 64-bit integer = 4 packed 16-bit components (major,
minor, patch, dev)", most significant first. -/
def encode_version (major minor patch dev : Nat) : Nat :=
  major * 2 ^ 48 + minor * 2 ^ 32 + patch * 2 ^ 16 + dev

/-- Modelled from the spec: `__factorio_version_info__` (the environment's
Factorio version, `draftsman/_factorio_version.py` is not under `src/`),
used by `setup` as the default `version`.  The concrete components are
irrelevant to every theorem below; Factorio 1.1.61.0 is used. -/
def factorioVersionInfo : Nat := encode_version 1 1 61 0

/-- Embeds `Blueprint.to_dict` (`blueprint.py`): dump the scalar metadata,
run `_normalize_internal_structure`, subtract the stored
`snapping_grid_position` from every exported entity and tile position, then
delete `snap-to-grid` and `position-relative-to-grid` when equal to
`{x: 0, y: 0}` and `entities`/`tiles`/`schedules` when empty.

The metadata dump embeds `Exportable.to_dict` (modelled from the spec:
`classes/exportable.py` is not under `src/`): scalar fields whose value is
`None` or equal to their declared default are omitted (`exclude_none`,
`exclude_defaults`; the only non-`None` default among these scalars is
`absolute-snapping = True`), and the two grid keys are serialized from the
private vectors by the `field_serializer`s of `Blueprint.Format` in `src/`.

The Python function mutates only the freshly built result dicts
(`entity.to_dict()`/`tile.to_dict()` return fresh representations) and only
reads `self`, so the embedded transformer returns the blueprint state it
was given alongside the produced mapping.  The next two definitions are the
entity and tile halves of its grid-offset loop. -/
def subtractEntityPos (g : Vec2) (e : ExtEntity) : ExtEntity :=
  { e with position := ⟨e.position.x - (g.x : ℚ), e.position.y - (g.y : ℚ)⟩ }

/-- The tile-position half of the grid-offset loop of `to_dict`. -/
def subtractTilePos (g : Vec2) (t : Tile) : Tile :=
  { t with position := ⟨t.position.x - g.x, t.position.y - g.y⟩ }

/-- The mapping `to_dict` returns, given the lists produced by
`_normalize_internal_structure`: the grid offset is subtracted from every
entity and tile position, the metadata dump omits `None`/default scalars,
and the final deletion block drops `snap-to-grid` and
`position-relative-to-grid` at `{x: 0, y: 0}` and the three empty lists. -/
def mkExtOutput (bp : Blueprint) (ents0 : List ExtEntity) (tls0 : List Tile)
    (scheds : List ExtSchedule) : ExtBlueprint :=
  let ents := ents0.map (subtractEntityPos bp.snappingGridPosition)
  let tls := tls0.map (subtractTilePos bp.snappingGridPosition)
  { label := bp.label
    labelColor := bp.labelColor
    description := bp.description
    icons := bp.icons
    version := bp.version
    snapToGrid := if bp.snapToGrid = ⟨0, 0⟩ then none else some bp.snapToGrid
    absoluteSnapping :=
      if bp.absoluteSnapping = some true then none else bp.absoluteSnapping
    positionRelativeToGrid :=
      if bp.positionRelativeToGrid = ⟨0, 0⟩ then none
      else some bp.positionRelativeToGrid
    entities := if ents.isEmpty then none else some ents
    tiles := if tls.isEmpty then none else some tls
    schedules := if scheds.isEmpty then none else some scheds
    index := bp.index }

/-- Embeds `Blueprint.to_dict` itself; see the comments on
`subtractEntityPos` and `mkExtOutput` above. -/
def to_dict (bp : Blueprint) : Except ExportError (ExtBlueprint × Blueprint) := do
  let (ents0, tls0, scheds) ←
    normalize_internal_structure bp.entities bp.tiles bp.schedules
  return (mkExtOutput bp ents0 tls0 scheds, bp)

/-! The import pipeline: `Blueprint.setup` on a nested-mapping input. -/

/-- The exceptions `setup` can raise while rehydrating integer references.
`indexError` embeds the `IndexError` of `self.entities[old]` when the
0-based index is out of range. -/
inductive ImportError where
  | indexError
deriving DecidableEq, Repr

/-- CPython sequence subscript semantics for `self.entities[i]`: a negative
index counts from the end; `none` embeds `IndexError`. -/
def pyGet (l : List Entity) (i : Int) : Option Entity :=
  let j := if i < 0 then (l.length : Int) + i else i
  if 0 ≤ j then l.get? j.toNat else none

/-- Convert one integer reference to an Association during `setup`:
`old = point["entity_id"] - 1; point["entity_id"] =
Association(self.entities[old])`. -/
def setupRef (entities : List Entity) (k : Nat) : Except ImportError Ref :=
  match pyGet entities ((k : Int) - 1) with
  | some e => .ok (.assoc (some e.core))
  | none => .error .indexError

/-- Build the raw in-memory entity for the `i`-th imported entity dict:
a fresh object (identity `i`, embedding the distinct `id()` of each
constructed Python object) whose reference fields still hold the external
integers.  The external `entity_number` key is not part of the constructed
entity (references are rehydrated purely by list position).  Modelled from
the spec for the `Entity` constructor (`classes/entity.py` not under
`src/`); spec section 4.3: "0-based list index = integer − 1". -/
def importEntityRaw (i : Nat) (x : ExtEntity) : Entity :=
  { core := { pyid := i, name := x.name, position := x.position, tags := x.tags }
    connections := x.connections.map fun c =>
      { wr1 := c.wr1.map fun s =>
          { red := s.red.map (·.map fun p => ⟨.num p.entityId, p.circuitId⟩)
            green := s.green.map (·.map fun p => ⟨.num p.entityId, p.circuitId⟩) }
        wr2 := c.wr2.map fun s =>
          { red := s.red.map (·.map fun p => ⟨.num p.entityId, p.circuitId⟩)
            green := s.green.map (·.map fun p => ⟨.num p.entityId, p.circuitId⟩) }
        cu0 := c.cu0.map (·.map fun p => ⟨.num p.entityId, p.wireId⟩)
        cu1 := c.cu1.map (·.map fun p => ⟨.num p.entityId, p.wireId⟩) }
    neighbours := x.neighbours.map (·.map Ref.num) }

/-- Convert the `entity_id` of one circuit connection point during
`setup`. -/
def setupConvPoint (entities : List Entity) (p : CircuitConnPoint) :
    Except ImportError CircuitConnPoint :=
  match p.entityId with
  | .num k => do return { p with entityId := ← setupRef entities k }
  | r => .ok { p with entityId := r }

/-- Convert the `entity_id` of one copper connection point during
`setup`. -/
def setupConvWire (entities : List Entity) (p : WireConnPoint) :
    Except ImportError WireConnPoint :=
  match p.entityId with
  | .num k => do return { p with entityId := ← setupRef entities k }
  | r => .ok { p with entityId := r }

/-- Convert one circuit connection side during `setup`. -/
def setupConvSide (entities : List Entity) (s : CircuitConnections) :
    Except ImportError CircuitConnections := do
  return { red := ← s.red.mapM (·.mapM (setupConvPoint entities))
           green := ← s.green.mapM (·.mapM (setupConvPoint entities)) }

/-- Convert one neighbour reference during `setup`. -/
def setupConvNeighbour (entities : List Entity) (r : Ref) : Except ImportError Ref :=
  match r with
  | .num k => setupRef entities k
  | r => .ok r

/-- Rewrite every reference field of one entity from integers to
Associations against the already-built entity list (the conversion loops at
the end of `Blueprint.setup`). -/
def setupConvertEntity (entities : List Entity) (e : Entity) :
    Except ImportError Entity := do
  let conns ← e.connections.mapM fun c => do
    return { wr1 := ← c.wr1.mapM (setupConvSide entities)
             wr2 := ← c.wr2.mapM (setupConvSide entities)
             cu0 := ← c.cu0.mapM (·.mapM (setupConvWire entities))
             cu1 := ← c.cu1.mapM (·.mapM (setupConvWire entities)) : Connections }
  let neighbours ← e.neighbours.mapM fun ns => ns.mapM (setupConvNeighbour entities)
  return { e with connections := conns, neighbours := neighbours }

/-- Build the in-memory entity list from the imported entity dicts: first
every entity object is constructed (`EntityList(self, entities)`), then the
conversion loops rewrite each integer reference into an Association wrapping
`self.entities[integer - 1]`. -/
def setupEntities (xs : List ExtEntity) : Except ImportError (List Entity) :=
  let raw := xs.enum.map fun p => importEntityRaw p.1 p.2
  raw.mapM (setupConvertEntity raw)

/-- Rehydrate the locomotive references of one imported schedule. -/
def setupSchedule (ents : List Entity) (s : ExtSchedule) :
    Except ImportError Schedule := do
  let locos ← s.locomotives.mapM (setupRef ents)
  return { stops := s.stops, locomotives := locos }

/-- Embeds `Blueprint.setup` on a nested-mapping input (the dict branch of
the constructor): metadata is assigned (with `version` defaulting to the
environment's Factorio version, `absolute-snapping` to `True`, and each
absent grid vector leaving the private vector at `(0, 0)`;
`snapping_grid_position` has no external key and is always `(0, 0)` after
import), entity/tile/schedule lists are built, and integer references are
rehydrated into Associations. -/
def setup (x : ExtBlueprint) : Except ImportError Blueprint := do
  let ents ← setupEntities (x.entities.getD [])
  let scheds ← (x.schedules.getD []).mapM (setupSchedule ents)
  return { label := x.label
           labelColor := x.labelColor
           description := x.description
           icons := x.icons
           version := some (x.version.getD factorioVersionInfo)
           snapToGrid := x.snapToGrid.getD ⟨0, 0⟩
           snappingGridPosition := ⟨0, 0⟩
           absoluteSnapping := some (x.absoluteSnapping.getD true)
           positionRelativeToGrid := x.positionRelativeToGrid.getD ⟨0, 0⟩
           entities := (ents.map EntityLike.prim)
           tiles := x.tiles.getD []
           schedules := scheds
           index := x.index }

/-! Support for the round-trip property: validity of an external
representation and the documented normalization it round-trips up to. -/

/-- All integer entity references appearing in one side of exported circuit
connections. -/
def extSideIds (s : ExtCircuitConnections) : List Nat :=
  (s.red.getD []).map (·.entityId) ++ (s.green.getD []).map (·.entityId)

/-- All integer entity references appearing in an exported `connections`
value. -/
def extConnIds (c : ExtConnections) : List Nat :=
  ((c.wr1.map extSideIds).getD []) ++ ((c.wr2.map extSideIds).getD []) ++
    (c.cu0.getD []).map (·.entityId) ++ (c.cu1.getD []).map (·.entityId)

/-- All integer entity references of one exported entity record
(wire connections and neighbours). -/
def extEntityIds (x : ExtEntity) : List Nat :=
  ((x.connections.map extConnIds).getD []) ++ (x.neighbours.getD [])

/-- Value equality of two external entity records, disregarding their
`entity_number`: the external counterpart of `coreEq`. -/
def extValEq (a b : ExtEntity) : Bool :=
  a.name == b.name && a.position == b.position && a.tags == b.tags

/-- No two entity records of the list are value-equal. -/
def distinctEntities : List ExtEntity → Bool
  | [] => true
  | e :: rest => rest.all (fun f => !extValEq e f) && distinctEntities rest

/-- Validity of an external representation, as assumed by the import code:
entity records are numbered `1..N` in order (the rehydration maps the
integer `k` to the entity at list position `k - 1`, so `entity_number` must
agree with position), and every wire/neighbour/locomotive reference lies in
`[1, N]`. -/
def validExt (x : ExtBlueprint) : Bool :=
  let ents := x.entities.getD []
  let n := ents.length
  ents.enum.all (fun p => p.2.entityNumber == p.1 + 1) &&
    ents.all (fun e => (extEntityIds e).all fun k => 1 ≤ k && k ≤ n) &&
    (x.schedules.getD []).all fun s => s.locomotives.all fun k => 1 ≤ k && k ≤ n

/-- Drop an optional grid vector equal to the default `{x: 0, y: 0}`. -/
def stripDefaultVec : Option Vec2 → Option Vec2
  | some w => if w = ⟨0, 0⟩ then none else some w
  | none => none

/-- Drop an optional list that is empty. -/
def stripEmpty : Option (List α) → Option (List α)
  | some xs => if xs.isEmpty then none else some xs
  | none => none

/-- The documented normal form an external representation round-trips up
to: keys holding default values are omitted (`snap-to-grid` and
`position-relative-to-grid` at `{x: 0, y: 0}`, `absolute-snapping` at
`true`, empty `entities`/`tiles`/`schedules`), and an absent `version` is
filled with the environment's default version (the `setup` parameter
default). -/
def normalizeExt (x : ExtBlueprint) : ExtBlueprint :=
  { x with
    version := some (x.version.getD factorioVersionInfo)
    snapToGrid := stripDefaultVec x.snapToGrid
    absoluteSnapping := if x.absoluteSnapping = some false then some false else none
    positionRelativeToGrid := stripDefaultVec x.positionRelativeToGrid
    entities := stripEmpty x.entities
    tiles := stripEmpty x.tiles
    schedules := stripEmpty x.schedules }

/-- An error of a full import-export round trip. -/
inductive RoundTripError where
  | importErr (e : ImportError)
  | exportErr (e : ExportError)
deriving DecidableEq, Repr

/-- The round trip: construct a Blueprint from an external representation
(`Blueprint(x)`) and export it again (`to_dict`). -/
def round_trip (x : ExtBlueprint) : Except RoundTripError ExtBlueprint :=
  match setup x with
  | .error e => .error (.importErr e)
  | .ok bp =>
    match to_dict bp with
    | .error e => .error (.exportErr e)
    | .ok (ext, _) => .ok ext

/-- The core of the entity object an in-range external reference `k` ends
up wrapping after import: the object built from the `k-1`-th record, whose
identity is its list position. -/
def extCoreAt (xs : List ExtEntity) (k : Nat) : Option EntityCore :=
  (xs.get? (k - 1)).map fun x => ⟨k - 1, x.name, x.position, x.tags⟩

/-- The Association an in-range external reference `k` becomes. -/
def refAssocAt (xs : List ExtEntity) (k : Nat) : Ref := .assoc (extCoreAt xs k)

/-- The in-memory entity `setup` builds from the `i`-th record of a valid
external representation, after reference conversion. -/
def importedEntity (xs : List ExtEntity) (i : Nat) (x : ExtEntity) : Entity :=
  { core := ⟨i, x.name, x.position, x.tags⟩
    connections := x.connections.map fun c =>
      { wr1 := c.wr1.map fun s =>
          { red := s.red.map (·.map fun p => ⟨refAssocAt xs p.entityId, p.circuitId⟩)
            green := s.green.map (·.map fun p => ⟨refAssocAt xs p.entityId, p.circuitId⟩) }
        wr2 := c.wr2.map fun s =>
          { red := s.red.map (·.map fun p => ⟨refAssocAt xs p.entityId, p.circuitId⟩)
            green := s.green.map (·.map fun p => ⟨refAssocAt xs p.entityId, p.circuitId⟩) }
        cu0 := c.cu0.map (·.map fun p => ⟨refAssocAt xs p.entityId, p.wireId⟩)
        cu1 := c.cu1.map (·.map fun p => ⟨refAssocAt xs p.entityId, p.wireId⟩) }
    neighbours := x.neighbours.map (·.map (refAssocAt xs)) }

/-- The entity list `setup` builds from a valid external entity list. -/
def importedEntities (xs : List ExtEntity) : List Entity :=
  xs.enum.map fun p => importedEntity xs p.1 p.2

/-- The blueprint `setup` builds from a valid external representation. -/
def importedBlueprint (x : ExtBlueprint) : Blueprint :=
  { label := x.label
    labelColor := x.labelColor
    description := x.description
    icons := x.icons
    version := some (x.version.getD factorioVersionInfo)
    snapToGrid := x.snapToGrid.getD ⟨0, 0⟩
    snappingGridPosition := ⟨0, 0⟩
    absoluteSnapping := some (x.absoluteSnapping.getD true)
    positionRelativeToGrid := x.positionRelativeToGrid.getD ⟨0, 0⟩
    entities := (importedEntities (x.entities.getD [])).map .prim
    tiles := x.tiles.getD []
    schedules := (x.schedules.getD []).map fun s =>
      ⟨s.stops, s.locomotives.map (refAssocAt (x.entities.getD []))⟩
    index := x.index }

/-! The insertion path: `Blueprint.on_entity_insert` together with the
spatial index and entity list it cooperates with.  This cluster models the
mutable object graph explicitly: `objects` is the arena of live entity
objects keyed by identity, and the entity list and the spatial hashmap each
hold object identities. -/

/-- An axis-aligned bounding box with rational corners. -/
structure AABB where
  minX : ℚ
  minY : ℚ
  maxX : ℚ
  maxY : ℚ
deriving DecidableEq, Repr

/-- A placed entity as seen by the insertion path: identity, name, position,
kind-specific payload, and its world-space bounding box
(`get_world_bounding_box`). -/
structure PlacedEntity where
  pyid : Nat
  name : String
  position : PosQ
  tags : Option String
  bbox : AABB
deriving DecidableEq, Repr

/-- Whether two bounding boxes overlap (with positive area). -/
def aabbOverlap (a b : AABB) : Bool :=
  a.minX < b.maxX && b.minX < a.maxX && a.minY < b.maxY && b.minY < a.maxY

/-- Modelled from the spec: `utils.extend_aabb` is not under `src/`.  It
extends a running bounding box (starting from `None`) with another box. -/
def extend_aabb : Option AABB → AABB → Option AABB
  | none, b => some b
  | some a, b =>
    some ⟨min a.minX b.minX, min a.minY b.minY, max a.maxX b.maxX, max a.maxY b.maxY⟩

/-- Modelled from the spec: `utils.aabb_to_dimensions` is not under `src/`.
It converts a bounding box to tile-rounded width and height (`(0, 0)` for
the empty box). -/
def aabb_to_dimensions : Option AABB → Int × Int
  | none => (0, 0)
  | some a => (⌈a.maxX⌉ - ⌊a.minX⌋, ⌈a.maxY⌉ - ⌊a.minY⌋)

/-- The mutable state touched by an entity insertion: the arena of live
objects, the entity list (`self.entities.data`, as identities in insertion
order), the spatial hashmap contents (`self.entity_map`, as identities),
and the cached area and tile dimensions. -/
structure BlueprintState where
  objects : List PlacedEntity
  entityList : List Nat
  entityMap : List Nat
  area : Option AABB
  tileWidth : Int
  tileHeight : Int
deriving DecidableEq, Repr

/-- Look up a live object by identity. -/
def findObj (s : BlueprintState) (pid : Nat) : Option PlacedEntity :=
  s.objects.find? (·.pyid == pid)

/-- Modelled from the spec: `Entity.mergable_with` (not under `src/`)
holds when the two entities have the same name/kind and effectively-equal
placement-relevant fields except for mergeable ones (the `tags` payload
stands in for the mergeable fields; position and footprint must agree, per
the prototype tests in `src/test`). -/
def mergable_with (a b : PlacedEntity) : Bool :=
  a.name == b.name && a.position == b.position && a.bbox == b.bbox

/-- Modelled from the spec: `Entity.merge` (not under `src/`) folds the
incoming entity's mergeable fields into the existing candidate (the `tags`
payload, per `test_merge` in `src/test`). -/
def mergeEntity (cand incoming : PlacedEntity) : PlacedEntity :=
  { cand with tags := incoming.tags }

/-- Modelled from the spec: `SpatialHashMap.handle_overlapping` is not under
`src/`.  Per spec section 4.1 it queries all objects of the index whose
bounding box intersects the new object's; with `merge` enabled, the first
candidate that is mergeable with the new object absorbs its mergeable
fields and the function signals "fully merged" by returning `None` (the
caller then discards the new object); otherwise (including always when
`merge` is false) overlaps only produce non-fatal warnings (not modelled:
no claim concerns the warning payload) and the new object is returned for
insertion.  `overlapMergeCandidate` is its query predicate: whether the
indexed object `pid` both overlaps the new object and is mergeable with
it. -/
def overlapMergeCandidate (s : BlueprintState) (e : PlacedEntity) (pid : Nat) : Bool :=
  match findObj s pid with
  | some c => aabbOverlap c.bbox e.bbox && mergable_with c e
  | none => false

/-- The merge/collision choke point itself; see `overlapMergeCandidate`
above. -/
def handle_overlapping (s : BlueprintState) (e : PlacedEntity) (merge : Bool) :
    BlueprintState × Option PlacedEntity :=
  if merge then
    match s.entityMap.find? (overlapMergeCandidate s e) with
    | some pid =>
      ({ s with objects := s.objects.map fun o =>
          if o.pyid == pid then mergeEntity o e else o }, none)
    | none => (s, some e)
  else (s, some e)

/-- The outcome of an insertion: fully merged (nothing added), inserted, or
aborted by `UnreasonablySizedBlueprintError` — in the last case the state
records the mutations already performed when the exception was raised. -/
inductive InsertOutcome where
  | merged (s : BlueprintState)
  | inserted (s : BlueprintState)
  | sizeError (s : BlueprintState) (w h : Int)
deriving DecidableEq, Repr

/-- Embeds `Blueprint.on_entity_insert` (`blueprint.py`): run
`handle_overlapping` (early exit when fully merged), add the entity to the
spatial hashmap (`recursive_add`) and to the arena of live objects, extend
the cached area with the entity's bounding box, recompute the tile
dimensions, and only then raise `UnreasonablySizedBlueprintError` if a
dimension exceeds 10,000 — without undoing any of the preceding
mutations. -/
def on_entity_insert (s : BlueprintState) (e : PlacedEntity) (merge : Bool) :
    InsertOutcome :=
  match handle_overlapping s e merge with
  | (s1, none) => .merged s1
  | (s1, some e1) =>
    let s2 := { s1 with objects := s1.objects ++ [e1],
                        entityMap := s1.entityMap ++ [e1.pyid] }
    let area := extend_aabb s2.area e1.bbox
    let dims := aabb_to_dimensions area
    let s3 := { s2 with area := area, tileWidth := dims.1, tileHeight := dims.2 }
    if dims.1 > 10000 || dims.2 > 10000 then .sizeError s3 dims.1 dims.2
    else .inserted s3

/-- Modelled from the spec: `EntityList.append` (`classes/entity_list.py`,
not under `src/`) invokes the parent's `on_entity_insert` callback and only
afterwards appends the (possibly replaced) entity to its backing list; when
the callback returns `None` nothing is appended, and when it raises the
exception propagates before any list mutation. -/
def entityListAppend (s : BlueprintState) (e : PlacedEntity) (merge : Bool) :
    InsertOutcome :=
  match on_entity_insert s e merge with
  | .inserted s1 => .inserted { s1 with entityList := s1.entityList ++ [e.pyid] }
  | r => r

/-! The validation layer: `DraftsmanBaseModel.warn_unused_arguments`
(`signatures.py`) in the context of a model validation run. -/

/-- Embeds `constants.ValidationMode` (values `NONE`, `MINIMUM`, `STRICT`,
`PEDANTIC`). -/
inductive ValidationMode where
  | noneMode
  | minimum
  | strict
  | pedantic
deriving DecidableEq, Repr

/-- A dynamically typed payload value, as received by a model validator. -/
inductive PyValue where
  | int (n : Int)
  | str (s : String)
  | bool (b : Bool)
deriving DecidableEq, Repr

/-- A declared field type of a model. -/
inductive FieldType where
  | intType
  | strType
  | boolType
deriving DecidableEq, Repr

/-- Whether a payload value satisfies a declared field type.  Modelled from
the spec for the pydantic machinery (a third-party collaborator): a
recognized field whose value cannot be validated against its annotation is
a hard `ValidationError` (values lax-mode-coercible to the annotation count
as matching). -/
def typeMatches : FieldType → PyValue → Bool
  | .intType, .int _ => true
  | .strType, .str _ => true
  | .boolType, .bool _ => true
  | _, _ => false

/-- A model schema: the declared (recognized) fields and their types. -/
structure ModelSchema where
  fields : List (String × FieldType)
deriving DecidableEq, Repr

/-- The declared type of a key, if the key is a recognized field. -/
def lookupField (schema : ModelSchema) (k : String) : Option FieldType :=
  (schema.fields.find? (·.1 == k)).map (·.2)

/-- The payload entries whose key is no recognized field of the model
(pydantic's `model_extra` under `extra="allow"`). -/
def extraKeys (schema : ModelSchema) (payload : List (String × PyValue)) : List String :=
  (payload.filter fun p => (lookupField schema p.1).isNone).map (·.1)

/-- Whether some recognized field of the payload carries a value of the
wrong type. -/
def hasTypeError (schema : ModelSchema) (payload : List (String × PyValue)) : Bool :=
  payload.any fun p =>
    match lookupField schema p.1 with
    | some t => !typeMatches t p.2
    | none => false

/-- Embeds `DraftsmanBaseModel.warn_unused_arguments` (`signatures.py`),
run as an after-validator with a validation context: under `MINIMUM` it
returns immediately; otherwise, if unrecognized extra fields are present it
builds an `UnknownKeywordWarning` naming them, raises it as a `ValueError`
under `PEDANTIC`, and appends it to the context's warning list in any other
mode. -/
def warn_unused_arguments (mode : ValidationMode) (extra : List String)
    (warningList : List String) : Except String (List String) :=
  if mode = .minimum then .ok warningList
  else if extra.isEmpty then .ok warningList
  else
    let issue := "object has no attribute(s) " ++ String.intercalate ", " extra
    if mode = .pedantic then .error issue
    else .ok (warningList ++ [issue])

/-- One model validation run in a validating mode (`validate` dispatches
modes `MINIMUM`/`STRICT`/`PEDANTIC` into `model_validate`; `NONE` skips the
call entirely): recognized fields are type-checked first (pydantic field
validation precedes `mode="after"` model validators, and a mismatch is a
hard error in every validating mode), then `warn_unused_arguments` handles
the unrecognized extras.  On success the collected warning list is
returned. -/
def model_validate (schema : ModelSchema) (mode : ValidationMode)
    (payload : List (String × PyValue)) : Except String (List String) :=
  if hasTypeError schema payload then .error "validation error"
  else warn_unused_arguments mode (extraKeys schema payload) []

/-! The `Color` format (`signatures.py`). -/

/-- A color input: either a numeric sequence or the `{r, g, b, a}`
mapping. -/
inductive ColorInput where
  | seq (l : List ℚ)
  | mapping (r g b : ℚ) (a : Option ℚ)
deriving DecidableEq, Repr

/-- The validated `Color` record: required `r`, `g`, `b` and optional `a`
(defaulting to `None`). -/
structure ColorRecord where
  r : ℚ
  g : ℚ
  b : ℚ
  a : Option ℚ
deriving DecidableEq, Repr

/-- Errors a `Color` validation can raise: a pydantic `ValidationError` for
a field out of its declared `ge=0, le=255` bounds (or missing), and the
`IndexError` escaping `normalize_from_sequence` when a sequence has fewer
than three elements. -/
inductive ColorError where
  | validationError
  | indexError
deriving DecidableEq, Repr

/-- Embeds `Color.normalize_from_sequence` (`signatures.py`): a list or
tuple input is rewritten to the mapping form from its first three elements,
with `a` taken from the fourth element when present (`IndexError` on a too
short sequence is raised while reading `value[0..2]`; the one from
`value[3]` is swallowed, leaving `a` absent). -/
def normalize_from_sequence : ColorInput → Except ColorError ColorInput
  | .seq l =>
    match l.get? 0, l.get? 1, l.get? 2 with
    | some r, some g, some b => .ok (.mapping r g b (l.get? 3))
    | _, _, _ => .error .indexError
  | v => .ok v

/-- Embeds the field validation of `Color` (`signatures.py`): each of `r`,
`g`, `b` is required and constrained to `0 ≤ v ≤ 255`; `a` defaults to
`None` and is constrained likewise when present. -/
def colorFieldValidate : ColorInput → Except ColorError ColorRecord
  | .mapping r g b a =>
    let inBounds : ℚ → Bool := fun v => 0 ≤ v && v ≤ 255
    if inBounds r && inBounds g && inBounds b &&
        (match a with | some v => inBounds v | none => true) then
      .ok { r := r, g := g, b := b, a := a }
    else .error .validationError
  | .seq _ => .error .validationError

/-- The full `Color` validation: the `mode="before"` sequence normalization
followed by field validation. -/
def colorValidate (v : ColorInput) : Except ColorError ColorRecord := do
  colorFieldValidate (← normalize_from_sequence v)

/-! Concrete instances exercising the definitions above. -/

/-- An external blueprint with every key absent. -/
def extEmpty : ExtBlueprint :=
  ⟨none, none, none, none, none, none, none, none, none, none, none, none⟩

/-- An in-memory blueprint with no content, no metadata and zero grid
vectors. -/
def bpEmpty : Blueprint :=
  ⟨none, none, none, none, none, ⟨0, 0⟩, ⟨0, 0⟩, none, ⟨0, 0⟩, [], [], [], none⟩

/-- A chest entity without references. -/
def chest0 : Entity := ⟨⟨0, "wooden-chest", ⟨1, 1⟩, none⟩, none, none⟩

/-- A second chest, a distinct object whose value equals `chest0`'s. -/
def chest1 : Entity := ⟨⟨1, "wooden-chest", ⟨1, 1⟩, none⟩, none, none⟩

/-- A chest at a different position. -/
def chest2 : Entity := ⟨⟨1, "wooden-chest", ⟨3, 1⟩, none⟩, none, none⟩

/-- A blueprint holding a group-wrapped chest and a plain chest. -/
def bpNumbering : Blueprint :=
  { bpEmpty with entities := [.group [.prim chest0], .prim chest2] }

/-- The flattened entity dicts `_normalize_internal_structure` produces for
`bpNumbering`. -/
def entsNumbering : List ExtEntity :=
  [⟨1, "wooden-chest", ⟨1, 1⟩, none, none, none⟩,
   ⟨2, "wooden-chest", ⟨3, 1⟩, none, none, none⟩]

/-- The export of `bpNumbering`. -/
def extNumbering : ExtBlueprint := mkExtOutput bpNumbering entsNumbering [] []

/-- A blueprint whose only schedule references a destroyed locomotive. -/
def bpDeadLoco : Blueprint := { bpEmpty with schedules := [⟨[], [.assoc none]⟩] }

/-- A blueprint whose only entity has a red wire connection to a destroyed
entity. -/
def bpDeadWire : Blueprint :=
  { bpEmpty with entities :=
      [.prim ⟨⟨0, "substation", ⟨1, 1⟩, none⟩,
              some ⟨some ⟨some [⟨.assoc none, none⟩], none⟩, none, none, none⟩,
              none⟩] }

/-- An entity 10,001 tiles wide. -/
def bigEntity : PlacedEntity := ⟨7, "crash-site-spaceship", ⟨0, 0⟩, none, ⟨0, 0, 10001, 1⟩⟩

/-- An insertion state with nothing placed. -/
def emptyState : BlueprintState := ⟨[], [], [], none, 0, 0⟩

/-- The state `on_entity_insert` leaves behind when it raises
`UnreasonablySizedBlueprintError` while inserting `bigEntity` into
`emptyState`. -/
def afterBigInsert : BlueprintState :=
  ⟨[bigEntity], [], [7], some ⟨0, 0, 10001, 1⟩, 10001, 1⟩

/-- A placed chest, candidate for merging. -/
def candChest : PlacedEntity := ⟨0, "wooden-chest", ⟨1, 1⟩, none, ⟨0, 0, 1, 1⟩⟩

/-- A second chest object at the same placement with a different `tags`
payload. -/
def incomingChest : PlacedEntity := ⟨1, "wooden-chest", ⟨1, 1⟩, some "stuff", ⟨0, 0, 1, 1⟩⟩

/-- The state holding exactly `candChest`. -/
def stateWithChest : BlueprintState :=
  ⟨[candChest], [candChest.pyid], [candChest.pyid], some ⟨0, 0, 1, 1⟩, 1, 1⟩

/-- A model with a single recognized integer field `bar`. -/
def schemaBar : ModelSchema := ⟨[("bar", .intType)]⟩

/-- A payload giving the recognized field a wrongly typed value. -/
def payloadWrongType : List (String × PyValue) := [("bar", .str "x")]

/-- A well-typed payload carrying an unrecognized extra field. -/
def payloadExtra : List (String × PyValue) :=
  [("bar", .int 5), ("unknown_key", .int 1)]

/-- A blueprint with a nonzero snapping-grid position, one entity and one
tile. -/
def bpOffset : Blueprint :=
  { bpEmpty with
    snappingGridPosition := ⟨3, 4⟩
    entities := [.prim ⟨⟨0, "wooden-chest", ⟨5, 6⟩, none⟩, none, none⟩]
    tiles := [⟨"landfill", ⟨7, 8⟩⟩] }

/-- The flattened entity dicts of `bpOffset`. -/
def entsOffset : List ExtEntity := [⟨1, "wooden-chest", ⟨5, 6⟩, none, none, none⟩]

/-- The export of `bpOffset`. -/
def extOffset : ExtBlueprint := mkExtOutput bpOffset entsOffset [⟨"landfill", ⟨7, 8⟩⟩] []

/-- The export of the empty blueprint. -/
def extOfEmpty : ExtBlueprint := mkExtOutput bpEmpty [] [] []

/-- A valid external blueprint with two value-equal chest records and a
pole whose red wire references the second of them. -/
def extDup : ExtBlueprint :=
  { extEmpty with
    entities :=
      some [⟨1, "wooden-chest", ⟨1, 1⟩, none, none, none⟩,
            ⟨2, "wooden-chest", ⟨1, 1⟩, none, none, none⟩,
            ⟨3, "small-electric-pole", ⟨5, 1⟩, none,
             some ⟨some ⟨some [⟨2, none⟩], none⟩, none, none, none⟩, none⟩] }

/-- The blueprint `setup` constructs from `extDup`. -/
def bpDup : Blueprint :=
  { bpEmpty with
    version := some factorioVersionInfo
    absoluteSnapping := some true
    entities :=
      [.prim ⟨⟨0, "wooden-chest", ⟨1, 1⟩, none⟩, none, none⟩,
       .prim ⟨⟨1, "wooden-chest", ⟨1, 1⟩, none⟩, none, none⟩,
       .prim ⟨⟨2, "small-electric-pole", ⟨5, 1⟩, none⟩,
              some ⟨some ⟨some [⟨.assoc (some ⟨1, "wooden-chest", ⟨1, 1⟩, none⟩),
                                 none⟩], none⟩, none, none, none⟩,
              none⟩] }

/-- The flattened entity dicts `_normalize_internal_structure` produces for
`bpDup`: the pole's reference resolves to entity number 1, the first
value-equal match, although its referent is the entity numbered 2. -/
def entsDup : List ExtEntity :=
  [⟨1, "wooden-chest", ⟨1, 1⟩, none, none, none⟩,
   ⟨2, "wooden-chest", ⟨1, 1⟩, none, none, none⟩,
   ⟨3, "small-electric-pole", ⟨5, 1⟩, none,
    some ⟨some ⟨some [⟨1, none⟩], none⟩, none, none, none⟩, none⟩]

/-- What `round_trip` actually returns on `extDup`. -/
def extDupOut : ExtBlueprint :=
  { extEmpty with version := some factorioVersionInfo, entities := some entsDup }

/-- A representative valid external blueprint with distinct entities,
carrying every kind of field: metadata, a wire connection, neighbours, a
tile and a schedule. -/
def extRich : ExtBlueprint :=
  { label := some "test"
    labelColor := some ⟨127, 127, 127, none⟩
    description := some "desc"
    icons := some [⟨"signal-A", "virtual", 1⟩]
    version := none
    snapToGrid := some ⟨3, 2⟩
    absoluteSnapping := some false
    positionRelativeToGrid := some ⟨0, 0⟩
    entities := some
      [⟨1, "wooden-chest", ⟨1, 1⟩, none, none, none⟩,
       ⟨2, "small-electric-pole", ⟨5, 1⟩, some "mark",
        some ⟨some ⟨some [⟨1, some 1⟩], none⟩, none, some [⟨1, some 0⟩], none⟩,
        some [1]⟩]
    tiles := some [⟨"landfill", ⟨2, 3⟩⟩]
    schedules := some [⟨[⟨"StopA", [⟨"time", "or", some 100⟩]⟩], [2]⟩]
    index := some 5 }

/-- A flat list holding two value-equal chest objects. -/
def flatDup : List Entity := [chest0, chest1]

/-! General lemmas about `Except` computations and list traversals, shared
by the claim theorems below. -/

theorem except_bind_ok {ε α β : Type} {x : Except ε α} {g : α → Except ε β} {out : β}
    (h : (x >>= g) = .ok out) : ∃ a, x = .ok a ∧ g a = .ok out := by
  cases x with
  | error e => exact nomatch h
  | ok a => exact ⟨a, rfl, h⟩

theorem mapM_ok_cons {ε α β : Type} {f : α → Except ε β} {a : α} {l : List α}
    {out : List β} (h : (a :: l).mapM f = .ok out) :
    ∃ b bs, f a = .ok b ∧ l.mapM f = .ok bs ∧ out = b :: bs := by
  rw [List.mapM_cons] at h
  obtain ⟨b, hb, h2⟩ := except_bind_ok h
  obtain ⟨bs, hbs, h3⟩ := except_bind_ok h2
  exact ⟨b, bs, hb, hbs, by cases h3; rfl⟩

theorem mapM_ok_nil {ε α β : Type} {f : α → Except ε β} {out : List β}
    (h : ([] : List α).mapM f = .ok out) : out = [] := by
  rw [List.mapM_nil] at h
  cases h
  rfl

theorem mapM_ok_length {ε α β : Type} {f : α → Except ε β} :
    ∀ {l : List α} {out : List β}, l.mapM f = .ok out → out.length = l.length := by
  intro l
  induction l with
  | nil => intro out h; rw [mapM_ok_nil h]; rfl
  | cons a l ih =>
    intro out h
    obtain ⟨b, bs, _, hbs, rfl⟩ := mapM_ok_cons h
    simp [ih hbs]

theorem mapM_ok_get {ε α β : Type} {f : α → Except ε β} :
    ∀ {l : List α} {out : List β}, l.mapM f = .ok out →
      ∀ i a, l.get? i = some a → ∃ b, out.get? i = some b ∧ f a = .ok b := by
  intro l
  induction l with
  | nil => intro out _ i a ha; cases i <;> cases ha
  | cons x l ih =>
    intro out h i a ha
    obtain ⟨b, bs, hb, hbs, rfl⟩ := mapM_ok_cons h
    cases i with
    | zero => cases ha; exact ⟨b, rfl, hb⟩
    | succ i => exact ih hbs i a ha

theorem mapM_ok_map {ε α β γ : Type} {f : α → Except ε β} (numb : β → γ) (g : α → γ)
    (hfg : ∀ a b, f a = .ok b → numb b = g a) :
    ∀ {l : List α} {out : List β}, l.mapM f = .ok out → out.map numb = l.map g := by
  intro l
  induction l with
  | nil => intro out h; rw [mapM_ok_nil h]; rfl
  | cons a l ih =>
    intro out h
    obtain ⟨b, bs, hb, hbs, rfl⟩ := mapM_ok_cons h
    simp [ih hbs, hfg a b hb]

theorem mapM_ok_of_forall {ε α β : Type} {f : α → Except ε β} (g : α → β)
    (l : List α) (hfg : ∀ a ∈ l, f a = .ok (g a)) : l.mapM f = .ok (l.map g) := by
  induction l with
  | nil => rfl
  | cons a l ih =>
    rw [List.mapM_cons, hfg a (List.mem_cons_self a l),
      ih fun a ha => hfg a (List.mem_cons_of_mem _ ha)]
    rfl

theorem findIdx?_first {α : Type} (p : α → Bool) :
    ∀ (l : List α) (i : Nat) (a : α), l.get? i = some a → p a = true →
      (∀ j b, j < i → l.get? j = some b → p b = false) →
      List.findIdx? p l = some i := by
  intro l
  induction l with
  | nil => intro i a ha; cases i <;> cases ha
  | cons x xs ih =>
    intro i a ha hp hfirst
    cases i with
    | zero => cases ha; rw [List.findIdx?_cons, hp]; rfl
    | succ i =>
      have hx : p x = false := hfirst 0 x (Nat.succ_pos i) rfl
      rw [List.findIdx?_cons, hx, if_neg Bool.false_ne_true, List.findIdx?_succ,
        ih i a ha hp fun j b hj hb => hfirst (j + 1) b (Nat.succ_lt_succ hj) hb]
      rfl

/-! Facts about the export pipeline. -/

theorem exportEntity_ok_fields {flat : List Entity} {e : Entity} {n : Nat}
    {d : ExtEntity} (h : exportEntity flat e n = .ok d) :
    d.entityNumber = n ∧ d.name = e.core.name ∧ d.position = e.core.position ∧
      d.tags = e.core.tags := by
  unfold exportEntity at h
  obtain ⟨conns, h1, h⟩ := except_bind_ok h
  obtain ⟨nbs, h2, h⟩ := except_bind_ok h
  injection h with h
  subst h
  exact ⟨rfl, rfl, rfl, rfl⟩

theorem normalize_ok_elim {ein : List EntityLike} {tin : List Tile}
    {sin : List Schedule} {out : List ExtEntity × List Tile × List ExtSchedule}
    (h : normalize_internal_structure ein tin sin = .ok out) :
    ∃ entsOut schedsOut,
      (flatten_entities ein).enum.mapM (exportEnumEntity (flatten_entities ein)) =
        .ok entsOut ∧
      sin.mapM (exportSchedule (flatten_entities ein)) = .ok schedsOut ∧
      out = (entsOut, tin, schedsOut) := by
  unfold normalize_internal_structure at h
  obtain ⟨entsOut, hents, h⟩ := except_bind_ok h
  obtain ⟨schedsOut, hscheds, h⟩ := except_bind_ok h
  injection h with h
  exact ⟨entsOut, schedsOut, hents, hscheds, h.symm⟩

theorem to_dict_ok_intro (bp : Blueprint) {ents : List ExtEntity} {tls : List Tile}
    {scheds : List ExtSchedule}
    (h : normalize_internal_structure bp.entities bp.tiles bp.schedules =
      .ok (ents, tls, scheds)) :
    to_dict bp = .ok (mkExtOutput bp ents tls scheds, bp) := by
  unfold to_dict
  rw [h]
  rfl

theorem to_dict_ok_elim {bp bp' : Blueprint} {ext : ExtBlueprint}
    (h : to_dict bp = .ok (ext, bp')) :
    ∃ ents tls scheds,
      normalize_internal_structure bp.entities bp.tiles bp.schedules =
        .ok (ents, tls, scheds) ∧
      ext = mkExtOutput bp ents tls scheds ∧ bp' = bp := by
  unfold to_dict at h
  obtain ⟨⟨ents, tls, scheds⟩, hn, h⟩ := except_bind_ok h
  injection h with h
  obtain ⟨h1, h2⟩ := Prod.mk.injEq .. ▸ h
  exact ⟨ents, tls, scheds, hn, h1.symm, h2.symm⟩

/-- C1: For every Blueprint, exporting via `to_dict` assigns each entity in
the flattened entity list an `entity_number` equal to its 1-based position
in that list: the numbers are exactly `1..N` in flattened order, with no
gaps or repeats, where `N` is the total number of primitive entities after
flattening composites. -/
theorem entity_numbers_are_1_to_N (bp : Blueprint) (ext : ExtBlueprint)
    (bp' : Blueprint) (h : to_dict bp = .ok (ext, bp')) :
    (ext.entities.getD []).map (·.entityNumber) =
      List.range' 1 (flatten_entities bp.entities).length := by
  obtain ⟨ents, tls, scheds, hn, hext, _⟩ := to_dict_ok_elim h
  obtain ⟨entsOut, schedsOut, hents, _, hout⟩ := normalize_ok_elim hn
  obtain ⟨he, _, _⟩ := Prod.mk.injEq .. ▸ hout
  subst he
  subst hext
  have hlen : ents.length = (flatten_entities bp.entities).length :=
    (mapM_ok_length hents).trans List.enum_length
  have hnum : ents.map (·.entityNumber) =
      (flatten_entities bp.entities).enum.map (fun p => p.1 + 1) :=
    mapM_ok_map (·.entityNumber) (fun p => p.1 + 1)
      (fun p b hb => (exportEntity_ok_fields hb).1) hents
  simp only [mkExtOutput]
  by_cases hemp : (ents.map
      (subtractEntityPos bp.snappingGridPosition)).isEmpty
  · have h0 : ents = [] := by
      cases ents with
      | nil => rfl
      | cons a l => simp [List.isEmpty] at hemp
    rw [if_pos hemp]
    rw [h0] at hlen
    simp [← hlen]
  · rw [if_neg hemp]
    simp only [Option.getD_some]
    have hcomp : (ents.map (subtractEntityPos bp.snappingGridPosition)).map
        (·.entityNumber) = ents.map (·.entityNumber) := by
      rw [List.map_map]
      exact List.map_congr_left fun d _ => rfl
    rw [hcomp, hnum, show (fun p : Nat × Entity => p.1 + 1) =
        ((· + 1) ∘ Prod.fst) from rfl, ← List.map_map, List.enum_map_fst,
      List.range'_eq_map_range]
    exact List.map_congr_left fun a _ => Nat.add_comm a 1

/-- Witness for C1 at a blueprint containing a composite group and a plain
entity. -/
theorem entity_numbers_are_1_to_N_witness :
    to_dict bpNumbering = .ok (extNumbering, bpNumbering) ∧
      (extNumbering.entities.getD []).map (·.entityNumber) =
        List.range' 1 (flatten_entities bpNumbering.entities).length :=
  have h : to_dict bpNumbering = .ok (extNumbering, bpNumbering) :=
    to_dict_ok_intro bpNumbering (by decide)
  ⟨h, entity_numbers_are_1_to_N bpNumbering extNumbering bpNumbering h⟩

/-- C2 (documenting the code defect): during export, a dangling
wire-connection Association is reported through
`_throw_invalid_association(entity)` as an `InvalidAssociationError` whose
message names the offending entity's name and position — but a dangling
locomotive Association is passed to `_throw_invalid_association` itself
(`_throw_invalid_association(locomotive)`), whose `entity["name"]` lookup
on the Association raises a `TypeError` instead, so export aborts with the
wrong exception and without the promised name and position. -/
theorem dangling_locomotive_raises_type_error :
    to_dict bpDeadLoco = .error .typeError ∧
      to_dict bpDeadWire = .error (.invalidAssociation "substation" ⟨1, 1⟩) :=
  ⟨by decide, by decide⟩

theorem if_isEmpty_getD {α : Type} (l : List α) :
    (if l.isEmpty then none else some l).getD [] = l := by
  cases l <;> rfl

/-- C6: in the dict produced by `Blueprint.to_dict`, the `snap-to-grid` and
`position-relative-to-grid` keys are absent whenever their value equals the
default `{x: 0, y: 0}`, and the `entities`, `tiles` and `schedules` keys
are absent whenever the corresponding list is empty. -/
theorem default_valued_keys_omitted (bp : Blueprint) (ext : ExtBlueprint)
    (bp' : Blueprint) (h : to_dict bp = .ok (ext, bp')) :
    (bp.snapToGrid = ⟨0, 0⟩ → ext.snapToGrid = none) ∧
      (bp.positionRelativeToGrid = ⟨0, 0⟩ → ext.positionRelativeToGrid = none) ∧
      (flatten_entities bp.entities = [] → ext.entities = none) ∧
      (bp.tiles = [] → ext.tiles = none) ∧
      (bp.schedules = [] → ext.schedules = none) := by
  obtain ⟨ents, tls, scheds, hn, hext, _⟩ := to_dict_ok_elim h
  obtain ⟨entsOut, schedsOut, hents, hscheds, hout⟩ := normalize_ok_elim hn
  simp only [Prod.mk.injEq] at hout
  obtain ⟨he, ht, hs⟩ := hout
  subst he ht hs
  subst hext
  refine ⟨fun hyp => ?_, fun hyp => ?_, fun hyp => ?_, fun hyp => ?_, fun hyp => ?_⟩
  · simp [mkExtOutput, hyp]
  · simp [mkExtOutput, hyp]
  · have h0 : ents = [] := by
      have := (mapM_ok_length hents).trans List.enum_length
      rw [hyp] at this
      exact List.length_eq_zero.mp this
    simp [mkExtOutput, h0]
  · simp [mkExtOutput, hyp]
  · have h0 : scheds = [] := by
      have := mapM_ok_length hscheds
      rw [hyp] at this
      exact List.length_eq_zero.mp this
    simp [mkExtOutput, h0]

/-- Witness for C6 at the empty blueprint: every default-valued or empty
key is absent from the export. -/
theorem default_valued_keys_omitted_witness :
    to_dict bpEmpty = .ok (extOfEmpty, bpEmpty) ∧
      extOfEmpty.snapToGrid = none ∧ extOfEmpty.positionRelativeToGrid = none ∧
      extOfEmpty.entities = none ∧ extOfEmpty.tiles = none ∧
      extOfEmpty.schedules = none :=
  have h : to_dict bpEmpty = .ok (extOfEmpty, bpEmpty) :=
    to_dict_ok_intro bpEmpty (by decide)
  have c := default_valued_keys_omitted bpEmpty extOfEmpty bpEmpty h
  ⟨h, c.1 rfl, c.2.1 rfl, c.2.2.1 rfl, c.2.2.2.1 rfl, c.2.2.2.2 rfl⟩

/-- C5: `to_dict` subtracts the stored snapping-grid position from the
position of every exported entity and every exported tile, and the
transform is export-time-only: the returned blueprint state (the embedding
of `self` after the call, which the Python code only reads) is the state
that was passed in, its grid position and stored object positions
included. -/
theorem grid_offset_export_only (bp : Blueprint) (ext : ExtBlueprint)
    (bp' : Blueprint) (h : to_dict bp = .ok (ext, bp')) :
    bp' = bp ∧
      (∀ i e, (flatten_entities bp.entities).get? i = some e →
        ∃ d, (ext.entities.getD []).get? i = some d ∧
          d.position = ⟨e.core.position.x - (bp.snappingGridPosition.x : ℚ),
                        e.core.position.y - (bp.snappingGridPosition.y : ℚ)⟩) ∧
      (∀ i t, bp.tiles.get? i = some t →
        ∃ d, (ext.tiles.getD []).get? i = some d ∧ d.name = t.name ∧
          d.position = ⟨t.position.x - bp.snappingGridPosition.x,
                        t.position.y - bp.snappingGridPosition.y⟩) := by
  obtain ⟨ents, tls, scheds, hn, hext, hbp⟩ := to_dict_ok_elim h
  obtain ⟨entsOut, schedsOut, hents, hscheds, hout⟩ := normalize_ok_elim hn
  simp only [Prod.mk.injEq] at hout
  obtain ⟨he, ht, hs⟩ := hout
  subst he ht hs
  subst hext
  refine ⟨hbp, fun i e hi => ?_, fun i t hi => ?_⟩
  · have hi2 : (flatten_entities bp.entities).enum.get? i = some (i, e) := by
      rw [List.get?_eq_getElem?, List.getElem?_enum, ← List.get?_eq_getElem?, hi]
      rfl
    obtain ⟨b, hb, hf⟩ := mapM_ok_get hents i (i, e) hi2
    refine ⟨subtractEntityPos bp.snappingGridPosition b, ?_, ?_⟩
    · simp only [mkExtOutput, if_isEmpty_getD]
      rw [List.get?_eq_getElem?, List.getElem?_map, ← List.get?_eq_getElem?, hb]
      rfl
    · have hpos := (exportEntity_ok_fields hf).2.2.1
      simp [subtractEntityPos, hpos]
  · refine ⟨subtractTilePos bp.snappingGridPosition t, ?_, rfl, rfl⟩
    simp only [mkExtOutput, if_isEmpty_getD]
    rw [List.get?_eq_getElem?, List.getElem?_map, ← List.get?_eq_getElem?, hi]
    rfl

/-- Witness for C5 at a blueprint with grid position `(3, 4)`: the export
succeeds, returns the blueprint state unchanged, and the entity stored at
`(5, 6)` is exported at `(5 - 3, 6 - 4)`, the tile stored at `(7, 8)` at
`(7 - 3, 8 - 4)`. -/
theorem grid_offset_export_only_witness :
    to_dict bpOffset = .ok (extOffset, bpOffset) ∧
      (∃ d, (extOffset.entities.getD []).get? 0 = some d ∧
        d.position = ⟨(5 : ℚ) - ((3 : Int) : ℚ), (6 : ℚ) - ((4 : Int) : ℚ)⟩) ∧
      (∃ d, (extOffset.tiles.getD []).get? 0 = some d ∧ d.name = "landfill" ∧
        d.position = ⟨7 - 3, 8 - 4⟩) :=
  have h : to_dict bpOffset = .ok (extOffset, bpOffset) :=
    to_dict_ok_intro bpOffset (by decide)
  have c := grid_offset_export_only bpOffset extOffset bpOffset h
  ⟨h, c.2.1 0 ⟨⟨0, "wooden-chest", ⟨5, 6⟩, none⟩, none, none⟩ rfl,
    c.2.2 0 ⟨"landfill", ⟨7, 8⟩⟩ rfl⟩

/-- Counterexample to C3 as stated: inserting a 10,001-tile-wide entity
into an empty blueprint raises `UnreasonablySizedBlueprintError` — but the
entity is still in the spatial index afterwards (`on_entity_insert` runs
`recursive_add` before the size check and performs no rollback), so "the
entity is in neither the entity list nor the spatial index" is false. -/
theorem oversized_insert_leaves_index_entry :
    entityListAppend emptyState bigEntity false = .sizeError afterBigInsert 10001 1 ∧
      bigEntity.pyid ∈ afterBigInsert.entityMap :=
  ⟨by decide, by decide⟩

/-- C3 (amended): when inserting an entity whose bounding box pushes a
tile-rounded dimension past 10,000 (and that is not merged away), the
insertion raises the size error and the entity does not reach the entity
list — but it does remain in the spatial index. -/
theorem oversized_insert_raises_and_skips_list
    (s : BlueprintState) (e : PlacedEntity) (merge : Bool)
    (hnm : handle_overlapping s e merge = (s, some e))
    (hnl : e.pyid ∉ s.entityList)
    (hsz : 10000 < (aabb_to_dimensions (extend_aabb s.area e.bbox)).1 ∨
           10000 < (aabb_to_dimensions (extend_aabb s.area e.bbox)).2) :
    ∃ s' w h, entityListAppend s e merge = .sizeError s' w h ∧
      e.pyid ∈ s'.entityMap ∧ e.pyid ∉ s'.entityList := by
  have hc : (decide ((aabb_to_dimensions (extend_aabb s.area e.bbox)).1 > 10000) ||
      decide ((aabb_to_dimensions (extend_aabb s.area e.bbox)).2 > 10000)) = true := by
    rcases hsz with h | h <;> simp [h]
  unfold entityListAppend on_entity_insert
  rw [hnm]
  simp only [hc, if_true]
  refine ⟨_, _, _, rfl, ?_, hnl⟩
  simp

/-- Witness for C3 (amended) at the empty state and the oversized
entity. -/
theorem oversized_insert_raises_and_skips_list_witness :
    handle_overlapping emptyState bigEntity false = (emptyState, some bigEntity) ∧
      bigEntity.pyid ∉ emptyState.entityList ∧
      10000 < (aabb_to_dimensions (extend_aabb emptyState.area bigEntity.bbox)).1 ∧
      (∃ s' w h, entityListAppend emptyState bigEntity false = .sizeError s' w h ∧
        bigEntity.pyid ∈ s'.entityMap ∧ bigEntity.pyid ∉ s'.entityList) :=
  ⟨by decide, by decide, by decide,
    oversized_insert_raises_and_skips_list emptyState bigEntity false (by decide)
      (by decide) (Or.inl (by decide))⟩

/-- C8: inserting an entity that is mergeable with the one already placed
(same name, same placement, differing only in mergeable fields), with merge
enabled, leaves the collection at length 1: `handle_overlapping` folds the
incoming entity's mergeable fields into the surviving object,
`on_entity_insert` returns `None`, and nothing new is added to the entity
list. -/
theorem merge_insert_keeps_single_entity (s : BlueprintState)
    (cand e : PlacedEntity)
    (hobj : s.objects = [cand]) (hmap : s.entityMap = [cand.pyid])
    (hlist : s.entityList = [cand.pyid])
    (hov : aabbOverlap cand.bbox e.bbox = true)
    (hmg : mergable_with cand e = true) :
    ∃ s', entityListAppend s e true = .merged s' ∧
      s'.entityList = s.entityList ∧ s'.entityList.length = 1 ∧
      findObj s' cand.pyid = some (mergeEntity cand e) ∧
      (mergeEntity cand e).tags = e.tags := by
  have hpred : overlapMergeCandidate s e cand.pyid = true := by
    unfold overlapMergeCandidate findObj
    rw [hobj]
    simp [hov, hmg]
  have hfind : handle_overlapping s e true =
      ({ s with objects := [mergeEntity cand e] }, none) := by
    unfold handle_overlapping
    rw [hmap]
    simp only [List.find?_cons, hpred]
    rw [hobj]
    simp
  unfold entityListAppend on_entity_insert
  rw [hfind]
  refine ⟨_, rfl, rfl, by simp [hlist], by simp [findObj, mergeEntity], rfl⟩

/-- Witness for C8: re-inserting the placed chest with a new `tags` payload
and merge enabled. -/
theorem merge_insert_keeps_single_entity_witness :
    mergable_with candChest incomingChest = true ∧
      (∃ s', entityListAppend stateWithChest incomingChest true = .merged s' ∧
        s'.entityList = stateWithChest.entityList ∧ s'.entityList.length = 1 ∧
        findObj s' candChest.pyid = some (mergeEntity candChest incomingChest) ∧
        (mergeEntity candChest incomingChest).tags = incomingChest.tags) :=
  ⟨by decide,
    merge_insert_keeps_single_entity stateWithChest candChest incomingChest
      (by decide) (by decide) (by decide) (by decide) (by decide)⟩

/-- C7: during model validation, an unrecognized extra field is collected
as a warning (not an exception) under `strict`, produces nothing under
`minimum`, and is promoted to a fatal error under `pedantic`; a recognized
field with a wrongly typed value is a hard error in every validating
mode. -/
theorem validation_mode_behaviour (schema : ModelSchema)
    (p1 p2 : List (String × PyValue))
    (h1 : hasTypeError schema p1 = true)
    (h2 : hasTypeError schema p2 = false)
    (h3 : extraKeys schema p2 ≠ []) :
    ((model_validate schema .minimum p1).isOk = false ∧
      (model_validate schema .strict p1).isOk = false ∧
      (model_validate schema .pedantic p1).isOk = false) ∧
      (∃ w, model_validate schema .strict p2 = .ok w ∧ w ≠ []) ∧
      model_validate schema .minimum p2 = .ok [] ∧
      (model_validate schema .pedantic p2).isOk = false := by
  have hne : (extraKeys schema p2).isEmpty = false := by
    cases hE : extraKeys schema p2 with
    | nil => exact absurd hE h3
    | cons a l => rfl
  refine ⟨⟨?_, ?_, ?_⟩, ?_, ?_, ?_⟩
  · simp [model_validate, h1, Except.isOk, Except.toBool]
  · simp [model_validate, h1, Except.isOk, Except.toBool]
  · simp [model_validate, h1, Except.isOk, Except.toBool]
  · refine ⟨["object has no attribute(s) " ++
        String.intercalate ", " (extraKeys schema p2)], ?_, by simp⟩
    simp [model_validate, warn_unused_arguments, h2, hne]
  · simp [model_validate, warn_unused_arguments, h2]
  · simp [model_validate, warn_unused_arguments, h2, hne, Except.isOk, Except.toBool]

/-- Witness for C7 at a model with one integer field `bar`: a string value
for `bar` and an extra key `unknown_key`. -/
theorem validation_mode_behaviour_witness :
    hasTypeError schemaBar payloadWrongType = true ∧
      hasTypeError schemaBar payloadExtra = false ∧
      extraKeys schemaBar payloadExtra ≠ [] ∧
      (((model_validate schemaBar .minimum payloadWrongType).isOk = false ∧
        (model_validate schemaBar .strict payloadWrongType).isOk = false ∧
        (model_validate schemaBar .pedantic payloadWrongType).isOk = false) ∧
        (∃ w, model_validate schemaBar .strict payloadExtra = .ok w ∧ w ≠ []) ∧
        model_validate schemaBar .minimum payloadExtra = .ok [] ∧
        (model_validate schemaBar .pedantic payloadExtra).isOk = false) :=
  ⟨by decide, by decide, by decide,
    validation_mode_behaviour schemaBar payloadWrongType payloadExtra
      (by decide) (by decide) (by decide)⟩

/-- Counterexample to C9 as stated: validating the color sequence
`(127, 127, 127)` succeeds with the alpha field left unset (`None`) — it
does not default to full opacity in either scale (`255` or `1.0`). -/
theorem color_omitted_alpha_stays_unset :
    colorValidate (.seq [127, 127, 127]) = .ok ⟨127, 127, 127, none⟩ ∧
      colorValidate (.seq [127, 127, 127]) ≠ .ok ⟨127, 127, 127, some 255⟩ ∧
      colorValidate (.seq [127, 127, 127]) ≠ .ok ⟨127, 127, 127, some 1⟩ :=
  ⟨by decide, by decide, by decide⟩

/-- C9 (amended): a color is accepted either as a numeric sequence of at
least three elements (the first three or four are used) or as an
`{r, g, b, a}` mapping; every supplied component must lie in `[0, 255]`
(which admits values written in either the `[0.0, 1.0]` or the `[0, 255]`
convention); an omitted alpha component remains unset rather than
defaulting to full opacity, while a supplied one is kept; components
outside `[0, 255]` and sequences shorter than three elements are
rejected. -/
theorem color_accepts_both_forms (r g b a : ℚ)
    (hr : 0 ≤ r ∧ r ≤ 255) (hg : 0 ≤ g ∧ g ≤ 255) (hb : 0 ≤ b ∧ b ≤ 255)
    (ha : 0 ≤ a ∧ a ≤ 255) :
    colorValidate (.mapping r g b none) = .ok ⟨r, g, b, none⟩ ∧
      colorValidate (.mapping r g b (some a)) = .ok ⟨r, g, b, some a⟩ ∧
      colorValidate (.seq [r, g, b]) = .ok ⟨r, g, b, none⟩ ∧
      colorValidate (.seq [r, g, b, a]) = .ok ⟨r, g, b, some a⟩ ∧
      (∀ x : ℚ, 255 < x → (colorValidate (.mapping x g b none)).isOk = false) ∧
      (colorValidate (.seq [r, g])).isOk = false := by
  refine ⟨?_, ?_, ?_, ?_, fun x hx => ?_, rfl⟩
  · simp [colorValidate, normalize_from_sequence, colorFieldValidate, bind,
      Except.bind, hr.1, hr.2, hg.1, hg.2, hb.1, hb.2]
  · simp [colorValidate, normalize_from_sequence, colorFieldValidate, bind,
      Except.bind, hr.1, hr.2, hg.1, hg.2, hb.1, hb.2, ha.1, ha.2]
  · simp [colorValidate, normalize_from_sequence, colorFieldValidate, bind,
      Except.bind, hr.1, hr.2, hg.1, hg.2, hb.1, hb.2]
  · simp [colorValidate, normalize_from_sequence, colorFieldValidate, bind,
      Except.bind, hr.1, hr.2, hg.1, hg.2, hb.1, hb.2, ha.1, ha.2]
  · simp [colorValidate, normalize_from_sequence, colorFieldValidate, bind,
      Except.bind, hg.1, hg.2, hb.1, hb.2, not_le.mpr hx, Except.isOk,
      Except.toBool]

/-- Witness for C9 at components `127, 63, 0` with alpha `255`. -/
theorem color_accepts_both_forms_witness :
    (0 ≤ (127 : ℚ) ∧ (127 : ℚ) ≤ 255) ∧
      (colorValidate (.mapping 127 63 0 none) = .ok ⟨127, 63, 0, none⟩ ∧
        colorValidate (.mapping 127 63 0 (some 255)) = .ok ⟨127, 63, 0, some 255⟩ ∧
        colorValidate (.seq [127, 63, 0]) = .ok ⟨127, 63, 0, none⟩ ∧
        colorValidate (.seq [127, 63, 0, 255]) = .ok ⟨127, 63, 0, some 255⟩ ∧
        (∀ x : ℚ, 255 < x → (colorValidate (.mapping x 63 0 none)).isOk = false) ∧
        (colorValidate (.seq [127, 63])).isOk = false) :=
  ⟨⟨by decide, by decide⟩,
    color_accepts_both_forms 127 63 0 255 ⟨by decide, by decide⟩
      ⟨by decide, by decide⟩ ⟨by decide, by decide⟩ ⟨by decide, by decide⟩⟩

/-- C10: association resolution at export matches targets by equality, not
identity — `flattened_entities.index(old())` returns the first position
whose entity is identical to or compares equal to the referent, so when an
earlier, distinct entity compares equal to the referent, the reference
exports as the earlier entity's number `i + 1`, not its target's number
`j + 1`. -/
theorem association_resolution_matches_by_equality
    (flat : List Entity) (ownerName : String) (ownerPos : PosQ)
    (i j : Nat) (ei ej : Entity)
    (hi : flat.get? i = some ei) (hj : flat.get? j = some ej)
    (hij : i < j)
    (hpy : ei.core.pyid ≠ ej.core.pyid)
    (heq : coreEq ei.core ej.core = true)
    (hfirst : ∀ k b, k < i → flat.get? k = some b →
      b.core.pyid ≠ ej.core.pyid ∧ coreEq b.core ej.core = false) :
    resolveWireRef flat ownerName ownerPos (.assoc (some ej.core)) = .ok (i + 1) ∧
      i + 1 ≠ j + 1 := by
  constructor
  · have hfi : List.findIdx?
        (fun e => e.core.pyid == ej.core.pyid || coreEq e.core ej.core) flat =
        some i := by
      refine findIdx?_first _ flat i ei hi ?_ ?_
      · simp [heq]
      · intro k b hk hb
        obtain ⟨hb1, hb2⟩ := hfirst k b hk hb
        simp [hb1, hb2]
    show (match List.findIdx?
        (fun e => e.core.pyid == ej.core.pyid || coreEq e.core ej.core) flat with
      | some i => Except.ok (i + 1)
      | none => Except.error ExportError.valueError) = Except.ok (i + 1)
    rw [hfi]
  · omega

/-- Witness for C10 at a flattened list holding two value-equal chests: a
reference to the second chest (position 1, entity number 2) exports as
entity number 1. -/
theorem association_resolution_matches_by_equality_witness :
    chest0.core.pyid ≠ chest1.core.pyid ∧ coreEq chest0.core chest1.core = true ∧
      resolveWireRef flatDup "small-electric-pole" ⟨5, 1⟩
          (.assoc (some chest1.core)) = .ok (0 + 1) ∧
      0 + 1 ≠ 1 + 1 :=
  ⟨by decide, by decide,
    (association_resolution_matches_by_equality flatDup "small-electric-pole"
      ⟨5, 1⟩ 0 1 chest0 chest1 rfl rfl (by decide) (by decide) (by decide)
      (fun k b hk _ => absurd hk (Nat.not_lt_zero k))).1,
    (association_resolution_matches_by_equality flatDup "small-electric-pole"
      ⟨5, 1⟩ 0 1 chest0 chest1 rfl rfl (by decide) (by decide) (by decide)
      (fun k b hk _ => absurd hk (Nat.not_lt_zero k))).2⟩

end Draftsman
namespace Draftsman

theorem flatten_map_prim : ∀ l : List Entity,
    flatten_entities (l.map EntityLike.prim) = l := by
  intro l
  induction l with
  | nil => rfl
  | cons a l ih => simp [flatten_entities, flatten_entity_like, ih]

theorem mapM_map_ok {ε α β γ : Type} {f : β → Except ε γ} (g : α → β) (r : α → γ) :
    ∀ (l : List α), (∀ a ∈ l, f (g a) = .ok (r a)) →
      (l.map g).mapM f = .ok (l.map r) := by
  intro l
  induction l with
  | nil => intro _; rfl
  | cons a l ih =>
    intro h
    rw [List.map_cons, List.mapM_cons, h a (List.mem_cons_self a l),
      ih fun a ha => h a (List.mem_cons_of_mem _ ha)]
    rfl

theorem mapM_enumFrom_ok {ε β γ : Type} {f : Nat × β → Except ε γ} :
    ∀ (n : Nat) (l : List β) (out : List γ), out.length = l.length →
      (∀ i a b, l.get? i = some a → out.get? i = some b → f (n + i, a) = .ok b) →
      (l.enumFrom n).mapM f = .ok out := by
  intro n l
  induction l generalizing n with
  | nil =>
    intro out hlen _
    rw [List.length_nil, List.length_eq_zero] at hlen
    subst hlen
    rfl
  | cons a l ih =>
    intro out hlen h
    cases out with
    | nil => simp at hlen
    | cons b out =>
      have h0 : f (n + 0, a) = .ok b := h 0 a b rfl rfl
      rw [Nat.add_zero] at h0
      have hrest : (l.enumFrom (n + 1)).mapM f = .ok out :=
        ih (n + 1) out (by simpa using hlen) fun i a' b' ha hb => by
          have := h (i + 1) a' b' ha hb
          rwa [show n + (i + 1) = n + 1 + i by omega] at this
      show (((n, a) :: l.enumFrom (n + 1)).mapM f) = .ok (b :: out)
      rw [List.mapM_cons, h0, hrest]
      rfl

theorem mapM_enum_ok {ε β γ : Type} {f : Nat × β → Except ε γ} (l : List β)
    (out : List γ) (hlen : out.length = l.length)
    (h : ∀ i a b, l.get? i = some a → out.get? i = some b → f (i, a) = .ok b) :
    l.enum.mapM f = .ok out :=
  mapM_enumFrom_ok 0 l out hlen fun i a b ha hb => by
    have := h i a b ha hb
    rwa [Nat.zero_add]

theorem distinct_get : ∀ {xs : List ExtEntity}, distinctEntities xs = true →
    ∀ m n a b, m < n → xs.get? m = some a → xs.get? n = some b →
      extValEq a b = false := by
  intro xs
  induction xs with
  | nil => intro _ m n a b _ ha; cases m <;> cases ha
  | cons x xs ih =>
    intro hd m n a b hmn ha hb
    rw [show distinctEntities (x :: xs) =
      (xs.all (fun f => !extValEq x f) && distinctEntities xs) from rfl,
      Bool.and_eq_true] at hd
    cases m with
    | zero =>
      cases ha
      cases n with
      | zero => exact absurd hmn (by omega)
      | succ n =>
        have hmem : b ∈ xs := List.get?_mem hb
        have := List.all_eq_true.mp hd.1 b hmem
        simpa using this
    | succ m =>
      cases n with
      | zero => exact absurd hmn (by omega)
      | succ n => exact ih hd.2 m n a b (by omega) ha hb

theorem get?_importedEntities (xs : List ExtEntity) (i : Nat) :
    (importedEntities xs).get? i = (xs.get? i).map (importedEntity xs i) := by
  unfold importedEntities
  rw [List.get?_eq_getElem?, List.getElem?_map, List.getElem?_enum,
    ← List.get?_eq_getElem?]
  cases xs.get? i <;> rfl

theorem length_importedEntities (xs : List ExtEntity) :
    (importedEntities xs).length = xs.length := by
  unfold importedEntities
  rw [List.length_map, List.enum_length]

end Draftsman
namespace Draftsman

theorem pyGet_nonneg {L : List Entity} {i : Int} (h : 0 ≤ i) :
    pyGet L i = L.get? i.toNat := by
  simp only [pyGet]
  rw [show (if i < 0 then (L.length : Int) + i else i) = i from if_neg (by omega),
    if_pos h]

theorem setupRef_aligned {xs : List ExtEntity} {L : List Entity}
    (hcore : ∀ m xm, xs.get? m = some xm →
      ∃ e, L.get? m = some e ∧ e.core = ⟨m, xm.name, xm.position, xm.tags⟩)
    {k : Nat} (hk1 : 1 ≤ k) (hk2 : k ≤ xs.length) :
    setupRef L k = .ok (refAssocAt xs k) := by
  have hklt : k - 1 < xs.length := by omega
  obtain ⟨xm, hxm⟩ : ∃ xm, xs.get? (k - 1) = some xm := by
    rw [List.get?_eq_getElem?]
    exact ⟨xs[k - 1], List.getElem?_eq_getElem hklt⟩
  obtain ⟨e, he, hec⟩ := hcore (k - 1) xm hxm
  unfold setupRef
  rw [pyGet_nonneg (by omega), show ((k : Int) - 1).toNat = k - 1 by omega, he]
  unfold refAssocAt extCoreAt
  rw [hxm]
  dsimp only
  rw [hec]
  rfl

theorem coresAligned_imported (xs : List ExtEntity) :
    ∀ m xm, xs.get? m = some xm →
      ∃ e, (importedEntities xs).get? m = some e ∧
        e.core = ⟨m, xm.name, xm.position, xm.tags⟩ := by
  intro m xm hxm
  exact ⟨importedEntity xs m xm, by rw [get?_importedEntities, hxm]; rfl, rfl⟩

theorem resolveRef_roundtrip {xs : List ExtEntity} (hd : distinctEntities xs = true)
    {k : Nat} (hk1 : 1 ≤ k) (hk2 : k ≤ xs.length) (nm : String) (ps : PosQ) :
    resolveWireRef (importedEntities xs) nm ps (refAssocAt xs k) = .ok k ∧
      resolveLocomotiveRef (importedEntities xs) (refAssocAt xs k) = .ok k := by
  have hklt : k - 1 < xs.length := by omega
  obtain ⟨xk, hxk⟩ : ∃ xk, xs.get? (k - 1) = some xk := by
    rw [List.get?_eq_getElem?]
    exact ⟨xs[k - 1], List.getElem?_eq_getElem hklt⟩
  have hext : extCoreAt xs k = some ⟨k - 1, xk.name, xk.position, xk.tags⟩ := by
    unfold extCoreAt
    rw [hxk]
    rfl
  have hfi : pyListIndex (importedEntities xs)
      ⟨k - 1, xk.name, xk.position, xk.tags⟩ = some (k - 1) := by
    unfold pyListIndex
    apply findIdx?_first _ _ (k - 1) (importedEntity xs (k - 1) xk)
    · rw [get?_importedEntities, hxk]
      rfl
    · simp [importedEntity]
    · intro m b hm hb
      rw [get?_importedEntities] at hb
      cases hxm : xs.get? m with
      | none => rw [hxm] at hb; cases hb
      | some xm =>
        rw [hxm] at hb
        injection hb with hb
        subst hb
        have hne : extValEq xm xk = false :=
          distinct_get hd m (k - 1) xm xk (by omega) hxm hxk
        have hco : coreEq ⟨m, xm.name, xm.position, xm.tags⟩
            ⟨k - 1, xk.name, xk.position, xk.tags⟩ = extValEq xm xk := rfl
        simp [importedEntity, hco, hne, Nat.ne_of_lt hm]
  have hsucc : k - 1 + 1 = k := by omega
  constructor
  · unfold resolveWireRef
    rw [refAssocAt, hext]
    show (match pyListIndex (importedEntities xs)
        ⟨k - 1, xk.name, xk.position, xk.tags⟩ with
      | some i => Except.ok (i + 1)
      | none => Except.error ExportError.valueError) = Except.ok k
    rw [hfi]
    dsimp only
    rw [hsucc]
  · unfold resolveLocomotiveRef
    rw [refAssocAt, hext]
    show (match pyListIndex (importedEntities xs)
        ⟨k - 1, xk.name, xk.position, xk.tags⟩ with
      | some i => Except.ok (i + 1)
      | none => Except.error ExportError.valueError) = Except.ok k
    rw [hfi]
    dsimp only
    rw [hsucc]

end Draftsman
namespace Draftsman

theorem optionMapM_map_ok {ε α β γ : Type} {f : β → Except ε γ} (g : α → β)
    (r : α → γ) (o : Option α) (h : ∀ a ∈ o, f (g a) = .ok (r a)) :
    (o.map g).mapM f = .ok (o.map r) := by
  cases o with
  | none => rfl
  | some a =>
    show (f (g a) >>= fun y => pure (some y)) = _
    rw [h a rfl]
    rfl

theorem setupConvPoint_num {xs : List ExtEntity} {raw : List Entity}
    (hcore : ∀ m xm, xs.get? m = some xm →
      ∃ e, raw.get? m = some e ∧ e.core = ⟨m, xm.name, xm.position, xm.tags⟩)
    {k : Nat} (hk : 1 ≤ k ∧ k ≤ xs.length) (cid : Option Nat) :
    setupConvPoint raw ⟨.num k, cid⟩ = .ok ⟨refAssocAt xs k, cid⟩ := by
  unfold setupConvPoint
  dsimp only
  rw [setupRef_aligned hcore hk.1 hk.2]
  rfl

theorem setupConvWire_num {xs : List ExtEntity} {raw : List Entity}
    (hcore : ∀ m xm, xs.get? m = some xm →
      ∃ e, raw.get? m = some e ∧ e.core = ⟨m, xm.name, xm.position, xm.tags⟩)
    {k : Nat} (hk : 1 ≤ k ∧ k ≤ xs.length) (wid : Option Nat) :
    setupConvWire raw ⟨.num k, wid⟩ = .ok ⟨refAssocAt xs k, wid⟩ := by
  unfold setupConvWire
  dsimp only
  rw [setupRef_aligned hcore hk.1 hk.2]
  rfl

theorem setupConvSide_conv {xs : List ExtEntity} {raw : List Entity}
    (hcore : ∀ m xm, xs.get? m = some xm →
      ∃ e, raw.get? m = some e ∧ e.core = ⟨m, xm.name, xm.position, xm.tags⟩)
    (s : ExtCircuitConnections)
    (hs : ∀ k ∈ extSideIds s, 1 ≤ k ∧ k ≤ xs.length) :
    setupConvSide raw
        ⟨s.red.map (·.map fun p => ⟨.num p.entityId, p.circuitId⟩),
         s.green.map (·.map fun p => ⟨.num p.entityId, p.circuitId⟩)⟩ =
      .ok ⟨s.red.map (·.map fun p => ⟨refAssocAt xs p.entityId, p.circuitId⟩),
           s.green.map (·.map fun p => ⟨refAssocAt xs p.entityId, p.circuitId⟩)⟩ := by
  have hred : (s.red.map (·.map fun p => ⟨Ref.num p.entityId, p.circuitId⟩)).mapM
      (·.mapM (setupConvPoint raw)) =
      .ok (s.red.map (·.map fun p =>
        (⟨refAssocAt xs p.entityId, p.circuitId⟩ : CircuitConnPoint))) := by
    refine optionMapM_map_ok _ _ _ fun pts hpts => ?_
    refine mapM_map_ok _ _ pts fun p hp => ?_
    refine setupConvPoint_num hcore ?_ p.circuitId
    refine hs p.entityId ?_
    unfold extSideIds
    cases hsr : s.red with
    | none => cases hpts ▸ hsr
    | some pts' =>
      rw [hsr] at hpts
      cases hpts
      exact List.mem_append_left _ (List.mem_map_of_mem _ (by simpa [hsr] using hp))
  have hgreen : (s.green.map (·.map fun p => ⟨Ref.num p.entityId, p.circuitId⟩)).mapM
      (·.mapM (setupConvPoint raw)) =
      .ok (s.green.map (·.map fun p =>
        (⟨refAssocAt xs p.entityId, p.circuitId⟩ : CircuitConnPoint))) := by
    refine optionMapM_map_ok _ _ _ fun pts hpts => ?_
    refine mapM_map_ok _ _ pts fun p hp => ?_
    refine setupConvPoint_num hcore ?_ p.circuitId
    refine hs p.entityId ?_
    unfold extSideIds
    cases hsg : s.green with
    | none => cases hpts ▸ hsg
    | some pts' =>
      rw [hsg] at hpts
      cases hpts
      exact List.mem_append_right _ (List.mem_map_of_mem _ (by simpa [hsg] using hp))
  unfold setupConvSide
  dsimp only
  rw [hred, hgreen]
  rfl

end Draftsman
namespace Draftsman

theorem mem_connIds_wr1 {c : ExtConnections} {s : ExtCircuitConnections} {k : Nat}
    (h : c.wr1 = some s) (hk : k ∈ extSideIds s) : k ∈ extConnIds c := by
  unfold extConnIds
  rw [h]
  exact List.mem_append_left _ (List.mem_append_left _ (List.mem_append_left _ hk))

theorem mem_connIds_wr2 {c : ExtConnections} {s : ExtCircuitConnections} {k : Nat}
    (h : c.wr2 = some s) (hk : k ∈ extSideIds s) : k ∈ extConnIds c := by
  unfold extConnIds
  rw [h]
  exact List.mem_append_left _ (List.mem_append_left _ (List.mem_append_right _ hk))

theorem mem_connIds_cu0 {c : ExtConnections} {pts : List ExtWireConnPoint}
    {p : ExtWireConnPoint} (h : c.cu0 = some pts) (hp : p ∈ pts) :
    p.entityId ∈ extConnIds c := by
  unfold extConnIds
  rw [h]
  exact List.mem_append_left _
    (List.mem_append_right _ (List.mem_map_of_mem _ hp))

theorem mem_connIds_cu1 {c : ExtConnections} {pts : List ExtWireConnPoint}
    {p : ExtWireConnPoint} (h : c.cu1 = some pts) (hp : p ∈ pts) :
    p.entityId ∈ extConnIds c := by
  unfold extConnIds
  rw [h]
  exact List.mem_append_right _ (List.mem_map_of_mem _ hp)

theorem mem_entityIds_conn {x : ExtEntity} {c : ExtConnections} {k : Nat}
    (h : x.connections = some c) (hk : k ∈ extConnIds c) : k ∈ extEntityIds x := by
  unfold extEntityIds
  rw [h]
  exact List.mem_append_left _ hk

theorem mem_entityIds_neighbour {x : ExtEntity} {ns : List Nat} {k : Nat}
    (h : x.neighbours = some ns) (hk : k ∈ ns) : k ∈ extEntityIds x := by
  unfold extEntityIds
  rw [h]
  exact List.mem_append_right _ hk

theorem setupConvertEntity_imported {xs : List ExtEntity} {raw : List Entity}
    (hcore : ∀ m xm, xs.get? m = some xm →
      ∃ e, raw.get? m = some e ∧ e.core = ⟨m, xm.name, xm.position, xm.tags⟩)
    (i : Nat) (x : ExtEntity)
    (hrange : ∀ k ∈ extEntityIds x, 1 ≤ k ∧ k ≤ xs.length) :
    setupConvertEntity raw (importEntityRaw i x) = .ok (importedEntity xs i x) := by
  have hconns : ((importEntityRaw i x).connections).mapM (fun c => do
      return { wr1 := ← c.wr1.mapM (setupConvSide raw)
               wr2 := ← c.wr2.mapM (setupConvSide raw)
               cu0 := ← c.cu0.mapM
                 (fun l : List WireConnPoint => l.mapM (setupConvWire raw))
               cu1 := ← c.cu1.mapM
                 (fun l : List WireConnPoint => l.mapM (setupConvWire raw)) :
               Connections }) =
      .ok ((importedEntity xs i x).connections) := by
    dsimp only [importEntityRaw, importedEntity]
    refine optionMapM_map_ok _ _ _ fun c hc => ?_
    replace hc : x.connections = some c := hc
    have hwr1 : (c.wr1.map fun s =>
        (⟨s.red.map (·.map fun p => ⟨.num p.entityId, p.circuitId⟩),
          s.green.map (·.map fun p => ⟨.num p.entityId, p.circuitId⟩)⟩ :
          CircuitConnections)).mapM (setupConvSide raw) =
        .ok (c.wr1.map fun s =>
          ⟨s.red.map (·.map fun p => ⟨refAssocAt xs p.entityId, p.circuitId⟩),
           s.green.map (·.map fun p => ⟨refAssocAt xs p.entityId, p.circuitId⟩)⟩) := by
      refine optionMapM_map_ok _ _ _ fun s hs => ?_
      exact setupConvSide_conv hcore s fun k hk =>
        hrange k (mem_entityIds_conn hc (mem_connIds_wr1 hs hk))
    have hwr2 : (c.wr2.map fun s =>
        (⟨s.red.map (·.map fun p => ⟨.num p.entityId, p.circuitId⟩),
          s.green.map (·.map fun p => ⟨.num p.entityId, p.circuitId⟩)⟩ :
          CircuitConnections)).mapM (setupConvSide raw) =
        .ok (c.wr2.map fun s =>
          ⟨s.red.map (·.map fun p => ⟨refAssocAt xs p.entityId, p.circuitId⟩),
           s.green.map (·.map fun p => ⟨refAssocAt xs p.entityId, p.circuitId⟩)⟩) := by
      refine optionMapM_map_ok _ _ _ fun s hs => ?_
      exact setupConvSide_conv hcore s fun k hk =>
        hrange k (mem_entityIds_conn hc (mem_connIds_wr2 hs hk))
    have hcu0 : (c.cu0.map fun l : List ExtWireConnPoint => l.map fun p =>
        (⟨.num p.entityId, p.wireId⟩ : WireConnPoint)).mapM
          (fun l : List WireConnPoint => l.mapM (setupConvWire raw)) =
        .ok (c.cu0.map fun l : List ExtWireConnPoint => l.map fun p =>
          (⟨refAssocAt xs p.entityId, p.wireId⟩ : WireConnPoint)) := by
      refine optionMapM_map_ok _ _ _ fun pts hpts => ?_
      refine mapM_map_ok _ _ pts fun p hp => ?_
      exact setupConvWire_num hcore
        (hrange p.entityId (mem_entityIds_conn hc (mem_connIds_cu0 hpts hp)))
        p.wireId
    have hcu1 : (c.cu1.map fun l : List ExtWireConnPoint => l.map fun p =>
        (⟨.num p.entityId, p.wireId⟩ : WireConnPoint)).mapM
          (fun l : List WireConnPoint => l.mapM (setupConvWire raw)) =
        .ok (c.cu1.map fun l : List ExtWireConnPoint => l.map fun p =>
          (⟨refAssocAt xs p.entityId, p.wireId⟩ : WireConnPoint)) := by
      refine optionMapM_map_ok _ _ _ fun pts hpts => ?_
      refine mapM_map_ok _ _ pts fun p hp => ?_
      exact setupConvWire_num hcore
        (hrange p.entityId (mem_entityIds_conn hc (mem_connIds_cu1 hpts hp)))
        p.wireId
    dsimp only
    rw [hwr1, hwr2, hcu0, hcu1]
    rfl
  have hnbs : ((importEntityRaw i x).neighbours).mapM
      (fun ns => ns.mapM (setupConvNeighbour raw)) =
      .ok ((importedEntity xs i x).neighbours) := by
    dsimp only [importEntityRaw, importedEntity]
    refine optionMapM_map_ok _ _ _ fun ns hns => ?_
    replace hns : x.neighbours = some ns := hns
    refine mapM_map_ok _ _ ns fun k hk => ?_
    show setupConvNeighbour raw (.num k) = .ok (refAssocAt xs k)
    unfold setupConvNeighbour
    have := hrange k (mem_entityIds_neighbour hns hk)
    exact setupRef_aligned hcore this.1 this.2
  unfold setupConvertEntity
  rw [hconns, hnbs]
  rfl

end Draftsman
namespace Draftsman

theorem rawCores_aligned (xs : List ExtEntity) :
    ∀ m xm, xs.get? m = some xm →
      ∃ e, (xs.enum.map fun p => importEntityRaw p.1 p.2).get? m = some e ∧
        e.core = ⟨m, xm.name, xm.position, xm.tags⟩ := by
  intro m xm hxm
  refine ⟨importEntityRaw m xm, ?_, rfl⟩
  rw [List.get?_eq_getElem?, List.getElem?_map, List.getElem?_enum,
    ← List.get?_eq_getElem?, hxm]
  rfl

theorem ok_bind {ε α β : Type} (a : α) (f : α → Except ε β) :
    (Except.ok a >>= f : Except ε β) = f a := rfl

theorem snd_mem_of_mem_enum {α : Type} {p : Nat × α} {xs : List α}
    (hp : p ∈ xs.enum) : p.2 ∈ xs := by
  obtain ⟨h1, h2, h3⟩ := List.mem_enumFrom hp
  rw [h3]
  exact List.getElem_mem _

theorem setupEntities_ok {xs : List ExtEntity}
    (hrange : ∀ x ∈ xs, ∀ k ∈ extEntityIds x, 1 ≤ k ∧ k ≤ xs.length) :
    setupEntities xs = .ok (importedEntities xs) := by
  unfold setupEntities importedEntities
  refine mapM_map_ok _ _ xs.enum fun p hp => ?_
  exact setupConvertEntity_imported (rawCores_aligned xs) p.1 p.2
    (hrange p.2 (snd_mem_of_mem_enum hp))

theorem setupSchedule_imported {xs : List ExtEntity} (s : ExtSchedule)
    (hs : ∀ k ∈ s.locomotives, 1 ≤ k ∧ k ≤ xs.length) :
    setupSchedule (importedEntities xs) s =
      .ok ⟨s.stops, s.locomotives.map (refAssocAt xs)⟩ := by
  unfold setupSchedule
  rw [mapM_ok_of_forall (refAssocAt xs) s.locomotives fun k hk =>
    setupRef_aligned (coresAligned_imported xs) (hs k hk).1 (hs k hk).2]
  rfl

theorem setup_ok {x : ExtBlueprint} (hv : validExt x = true) :
    setup x = .ok (importedBlueprint x) := by
  have hv' := hv
  unfold validExt at hv'
  simp only [Bool.and_eq_true, List.all_eq_true, decide_eq_true_eq] at hv'
  obtain ⟨⟨-, hrange⟩, hsched⟩ := hv'
  have hents : setupEntities (x.entities.getD []) =
      .ok (importedEntities (x.entities.getD [])) :=
    setupEntities_ok fun e he k hk => hrange e he k hk
  have hscheds : (x.schedules.getD []).mapM
      (setupSchedule (importedEntities (x.entities.getD []))) =
      .ok ((x.schedules.getD []).map fun s =>
        (⟨s.stops, s.locomotives.map (refAssocAt (x.entities.getD []))⟩ :
          Schedule)) := by
    refine mapM_ok_of_forall _ _ fun s hsm => ?_
    exact setupSchedule_imported s fun k hk => hsched s hsm k hk
  unfold setup importedBlueprint
  rw [hents, ok_bind]
  rw [hscheds, ok_bind]
  rfl

end Draftsman
namespace Draftsman

theorem subtractEntityPos_zero : subtractEntityPos ⟨0, 0⟩ = id := by
  funext e
  simp [subtractEntityPos]

theorem subtractTilePos_zero : subtractTilePos ⟨0, 0⟩ = id := by
  funext t
  simp [subtractTilePos]

theorem resolveCircuitPoints_roundtrip {xs : List ExtEntity}
    (hd : distinctEntities xs = true) (nm : String) (ps : PosQ)
    (pts : List ExtCircuitConnPoint)
    (hpts : ∀ p ∈ pts, 1 ≤ p.entityId ∧ p.entityId ≤ xs.length) :
    resolveCircuitPoints (importedEntities xs) nm ps
      (pts.map fun p => ⟨refAssocAt xs p.entityId, p.circuitId⟩) = .ok pts := by
  unfold resolveCircuitPoints
  conv_rhs => rw [show pts = pts.map fun p => p by rw [List.map_id']]
  refine mapM_map_ok _ _ pts fun p hp => ?_
  dsimp only
  rw [(resolveRef_roundtrip hd (hpts p hp).1 (hpts p hp).2 nm ps).1]
  rfl

theorem resolveWirePoints_roundtrip {xs : List ExtEntity}
    (hd : distinctEntities xs = true) (nm : String) (ps : PosQ)
    (pts : List ExtWireConnPoint)
    (hpts : ∀ p ∈ pts, 1 ≤ p.entityId ∧ p.entityId ≤ xs.length) :
    resolveWirePoints (importedEntities xs) nm ps
      (pts.map fun p => ⟨refAssocAt xs p.entityId, p.wireId⟩) = .ok pts := by
  unfold resolveWirePoints
  conv_rhs => rw [show pts = pts.map fun p => p by rw [List.map_id']]
  refine mapM_map_ok _ _ pts fun p hp => ?_
  dsimp only
  rw [(resolveRef_roundtrip hd (hpts p hp).1 (hpts p hp).2 nm ps).1]
  rfl

theorem resolveCircuitConnections_roundtrip {xs : List ExtEntity}
    (hd : distinctEntities xs = true) (nm : String) (ps : PosQ)
    (s : ExtCircuitConnections)
    (hs : ∀ k ∈ extSideIds s, 1 ≤ k ∧ k ≤ xs.length) :
    resolveCircuitConnections (importedEntities xs) nm ps
      ⟨s.red.map (·.map fun p => ⟨refAssocAt xs p.entityId, p.circuitId⟩),
       s.green.map (·.map fun p => ⟨refAssocAt xs p.entityId, p.circuitId⟩)⟩ =
      .ok s := by
  have hred : (s.red.map fun l : List ExtCircuitConnPoint => l.map fun p =>
      (⟨refAssocAt xs p.entityId, p.circuitId⟩ : CircuitConnPoint)).mapM
      (resolveCircuitPoints (importedEntities xs) nm ps) = .ok s.red := by
    conv_rhs => rw [show s.red = s.red.map fun l => l by cases s.red <;> rfl]
    refine optionMapM_map_ok _ _ s.red fun pts hpts => ?_
    refine resolveCircuitPoints_roundtrip hd nm ps pts fun p hp => ?_
    refine hs p.entityId ?_
    unfold extSideIds
    cases hsr : s.red with
    | none => cases hpts ▸ hsr
    | some pts' =>
      rw [hsr] at hpts
      cases hpts
      exact List.mem_append_left _ (List.mem_map_of_mem _ (by simpa [hsr] using hp))
  have hgreen : (s.green.map fun l : List ExtCircuitConnPoint => l.map fun p =>
      (⟨refAssocAt xs p.entityId, p.circuitId⟩ : CircuitConnPoint)).mapM
      (resolveCircuitPoints (importedEntities xs) nm ps) = .ok s.green := by
    conv_rhs => rw [show s.green = s.green.map fun l => l by cases s.green <;> rfl]
    refine optionMapM_map_ok _ _ s.green fun pts hpts => ?_
    refine resolveCircuitPoints_roundtrip hd nm ps pts fun p hp => ?_
    refine hs p.entityId ?_
    unfold extSideIds
    cases hsg : s.green with
    | none => cases hpts ▸ hsg
    | some pts' =>
      rw [hsg] at hpts
      cases hpts
      exact List.mem_append_right _ (List.mem_map_of_mem _ (by simpa [hsg] using hp))
  unfold resolveCircuitConnections
  dsimp only
  rw [hred, hgreen]
  rfl

end Draftsman
namespace Draftsman

theorem resolveConnections_roundtrip {xs : List ExtEntity}
    (hd : distinctEntities xs = true) (nm : String) (ps : PosQ)
    (c : ExtConnections)
    (hc : ∀ k ∈ extConnIds c, 1 ≤ k ∧ k ≤ xs.length) :
    resolveConnections (importedEntities xs) nm ps
      ⟨c.wr1.map fun s =>
         ⟨s.red.map (fun l : List ExtCircuitConnPoint => l.map fun p =>
            ⟨refAssocAt xs p.entityId, p.circuitId⟩),
          s.green.map (fun l : List ExtCircuitConnPoint => l.map fun p =>
            ⟨refAssocAt xs p.entityId, p.circuitId⟩)⟩,
       c.wr2.map fun s =>
         ⟨s.red.map (fun l : List ExtCircuitConnPoint => l.map fun p =>
            ⟨refAssocAt xs p.entityId, p.circuitId⟩),
          s.green.map (fun l : List ExtCircuitConnPoint => l.map fun p =>
            ⟨refAssocAt xs p.entityId, p.circuitId⟩)⟩,
       c.cu0.map (fun l : List ExtWireConnPoint => l.map fun p =>
         ⟨refAssocAt xs p.entityId, p.wireId⟩),
       c.cu1.map (fun l : List ExtWireConnPoint => l.map fun p =>
         ⟨refAssocAt xs p.entityId, p.wireId⟩)⟩ = .ok c := by
  have hwr1 : (c.wr1.map fun s : ExtCircuitConnections =>
      (⟨s.red.map (fun l : List ExtCircuitConnPoint => l.map fun p =>
          ⟨refAssocAt xs p.entityId, p.circuitId⟩),
        s.green.map (fun l : List ExtCircuitConnPoint => l.map fun p =>
          ⟨refAssocAt xs p.entityId, p.circuitId⟩)⟩ : CircuitConnections)).mapM
      (resolveCircuitConnections (importedEntities xs) nm ps) = .ok c.wr1 := by
    conv_rhs => rw [show c.wr1 = c.wr1.map fun s => s by cases c.wr1 <;> rfl]
    refine optionMapM_map_ok _ _ c.wr1 fun s hs => ?_
    exact resolveCircuitConnections_roundtrip hd nm ps s fun k hk =>
      hc k (mem_connIds_wr1 hs hk)
  have hwr2 : (c.wr2.map fun s : ExtCircuitConnections =>
      (⟨s.red.map (fun l : List ExtCircuitConnPoint => l.map fun p =>
          ⟨refAssocAt xs p.entityId, p.circuitId⟩),
        s.green.map (fun l : List ExtCircuitConnPoint => l.map fun p =>
          ⟨refAssocAt xs p.entityId, p.circuitId⟩)⟩ : CircuitConnections)).mapM
      (resolveCircuitConnections (importedEntities xs) nm ps) = .ok c.wr2 := by
    conv_rhs => rw [show c.wr2 = c.wr2.map fun s => s by cases c.wr2 <;> rfl]
    refine optionMapM_map_ok _ _ c.wr2 fun s hs => ?_
    exact resolveCircuitConnections_roundtrip hd nm ps s fun k hk =>
      hc k (mem_connIds_wr2 hs hk)
  have hcu0 : (c.cu0.map fun l : List ExtWireConnPoint => l.map fun p =>
      (⟨refAssocAt xs p.entityId, p.wireId⟩ : WireConnPoint)).mapM
      (resolveWirePoints (importedEntities xs) nm ps) = .ok c.cu0 := by
    conv_rhs => rw [show c.cu0 = c.cu0.map fun l => l by cases c.cu0 <;> rfl]
    refine optionMapM_map_ok _ _ c.cu0 fun pts hpts => ?_
    exact resolveWirePoints_roundtrip hd nm ps pts fun p hp =>
      hc p.entityId (mem_connIds_cu0 hpts hp)
  have hcu1 : (c.cu1.map fun l : List ExtWireConnPoint => l.map fun p =>
      (⟨refAssocAt xs p.entityId, p.wireId⟩ : WireConnPoint)).mapM
      (resolveWirePoints (importedEntities xs) nm ps) = .ok c.cu1 := by
    conv_rhs => rw [show c.cu1 = c.cu1.map fun l => l by cases c.cu1 <;> rfl]
    refine optionMapM_map_ok _ _ c.cu1 fun pts hpts => ?_
    exact resolveWirePoints_roundtrip hd nm ps pts fun p hp =>
      hc p.entityId (mem_connIds_cu1 hpts hp)
  unfold resolveConnections
  dsimp only
  rw [hwr1, hwr2, hcu0, hcu1]
  rfl

theorem exportEntity_roundtrip {xs : List ExtEntity}
    (hd : distinctEntities xs = true) (i : Nat) (x : ExtEntity)
    (hrange : ∀ k ∈ extEntityIds x, 1 ≤ k ∧ k ≤ xs.length) :
    exportEntity (importedEntities xs) (importedEntity xs i x) (i + 1) =
      .ok ⟨i + 1, x.name, x.position, x.tags, x.connections, x.neighbours⟩ := by
  have hconns : ((importedEntity xs i x).connections).mapM
      (resolveConnections (importedEntities xs)
        (importedEntity xs i x).core.name (importedEntity xs i x).core.position) =
      .ok x.connections := by
    dsimp only [importedEntity]
    conv_rhs =>
      rw [show x.connections = x.connections.map fun c => c by
        cases x.connections <;> rfl]
    refine optionMapM_map_ok _ _ x.connections fun c hc => ?_
    exact resolveConnections_roundtrip hd x.name x.position c fun k hk =>
      hrange k (mem_entityIds_conn hc hk)
  have hnbs : ((importedEntity xs i x).neighbours).mapM
      (fun ns => ns.mapM (resolveWireRef (importedEntities xs)
        (importedEntity xs i x).core.name (importedEntity xs i x).core.position)) =
      .ok x.neighbours := by
    dsimp only [importedEntity]
    conv_rhs =>
      rw [show x.neighbours = x.neighbours.map fun ns => ns by
        cases x.neighbours <;> rfl]
    refine optionMapM_map_ok _ _ x.neighbours fun ns hns => ?_
    conv_rhs => rw [show ns = ns.map fun k => k by rw [List.map_id']]
    refine mapM_map_ok _ _ ns fun k hk => ?_
    exact (resolveRef_roundtrip hd (hrange k (mem_entityIds_neighbour hns hk)).1
      (hrange k (mem_entityIds_neighbour hns hk)).2 x.name x.position).1
  unfold exportEntity
  rw [hconns, ok_bind, hnbs, ok_bind]
  rfl

end Draftsman
namespace Draftsman

theorem exportSchedule_roundtrip {xs : List ExtEntity}
    (hd : distinctEntities xs = true) (s : ExtSchedule)
    (hs : ∀ k ∈ s.locomotives, 1 ≤ k ∧ k ≤ xs.length) :
    exportSchedule (importedEntities xs)
      ⟨s.stops, s.locomotives.map (refAssocAt xs)⟩ = .ok s := by
  have hlocos : (s.locomotives.map (refAssocAt xs)).mapM
      (resolveLocomotiveRef (importedEntities xs)) = .ok s.locomotives := by
    conv_rhs =>
      rw [show s.locomotives = s.locomotives.map fun k => k by rw [List.map_id']]
    refine mapM_map_ok _ _ s.locomotives fun k hk => ?_
    exact (resolveRef_roundtrip hd (hs k hk).1 (hs k hk).2 "" ⟨0, 0⟩).2
  unfold exportSchedule
  rw [hlocos, ok_bind]
  rfl

theorem normalize_roundtrip {x : ExtBlueprint} (hv : validExt x = true)
    (hd : distinctEntities (x.entities.getD []) = true) :
    normalize_internal_structure (importedBlueprint x).entities
      (importedBlueprint x).tiles (importedBlueprint x).schedules =
      .ok (x.entities.getD [], x.tiles.getD [], x.schedules.getD []) := by
  have hv' := hv
  unfold validExt at hv'
  simp only [Bool.and_eq_true, List.all_eq_true, decide_eq_true_eq] at hv'
  obtain ⟨⟨hnum, hrange⟩, hsched⟩ := hv'
  have hflat : flatten_entities (importedBlueprint x).entities =
      importedEntities (x.entities.getD []) :=
    flatten_map_prim _
  have hents : (importedEntities (x.entities.getD [])).enum.mapM
      (exportEnumEntity (importedEntities (x.entities.getD []))) =
      .ok (x.entities.getD []) := by
    refine mapM_enum_ok _ _ (length_importedEntities _).symm fun i a b ha hb => ?_
    rw [get?_importedEntities, hb] at ha
    injection ha with ha
    subst ha
    have hbmem : b ∈ x.entities.getD [] := List.get?_mem hb
    have hbnum : b.entityNumber = i + 1 := by
      have henum : (i, b) ∈ (x.entities.getD []).enum := by
        refine List.get?_mem (n := i) ?_
        rw [List.get?_eq_getElem?, List.getElem?_enum, ← List.get?_eq_getElem?, hb]
        rfl
      have := hnum (i, b) henum
      simpa using this
    have h := exportEntity_roundtrip hd i b fun k hk => hrange b hbmem k hk
    show exportEntity _ _ (i + 1) = .ok b
    rw [h, ← hbnum]
  have hscheds : ((x.schedules.getD []).map fun s =>
      (⟨s.stops, s.locomotives.map (refAssocAt (x.entities.getD []))⟩ :
        Schedule)).mapM (exportSchedule (importedEntities (x.entities.getD []))) =
      .ok (x.schedules.getD []) := by
    conv_rhs =>
      rw [show x.schedules.getD [] = (x.schedules.getD []).map fun s => s by
        rw [List.map_id']]
    refine mapM_map_ok _ _ _ fun s hsm => ?_
    exact exportSchedule_roundtrip hd s fun k hk => hsched s hsm k hk
  unfold normalize_internal_structure
  rw [hflat]
  show (importedEntities (x.entities.getD [])).enum.mapM
      (exportEnumEntity (importedEntities (x.entities.getD []))) >>= _ = _
  rw [hents, ok_bind]
  show ((importedBlueprint x).schedules).mapM _ >>= _ = _
  rw [show (importedBlueprint x).schedules = (x.schedules.getD []).map fun s =>
      (⟨s.stops, s.locomotives.map (refAssocAt (x.entities.getD []))⟩ :
        Schedule) from rfl]
  rw [hscheds, ok_bind]
  rfl

end Draftsman
namespace Draftsman

theorem mkExtOutput_imported (x : ExtBlueprint) :
    mkExtOutput (importedBlueprint x) (x.entities.getD []) (x.tiles.getD [])
      (x.schedules.getD []) = normalizeExt x := by
  unfold mkExtOutput
  rw [show (importedBlueprint x).snappingGridPosition = (⟨0, 0⟩ : Vec2) from rfl,
    subtractEntityPos_zero, subtractTilePos_zero, List.map_id, List.map_id]
  unfold normalizeExt
  simp only [ExtBlueprint.mk.injEq]
  refine ⟨rfl, rfl, rfl, rfl, rfl, ?_, ?_, ?_, ?_, ?_, ?_, rfl⟩
  · cases h : x.snapToGrid <;> simp [stripDefaultVec, importedBlueprint, h]
  · cases h : x.absoluteSnapping with
    | none => simp [importedBlueprint, h]
    | some b => cases b <;> simp [importedBlueprint, h]
  · cases h : x.positionRelativeToGrid <;>
      simp [stripDefaultVec, importedBlueprint, h]
  · cases h : x.entities <;> simp [stripEmpty, h]
  · cases h : x.tiles <;> simp [stripEmpty, importedBlueprint, h]
  · cases h : x.schedules <;> simp [stripEmpty, importedBlueprint, h]

end Draftsman
namespace Draftsman

theorem round_trip_eq {x : ExtBlueprint} {bp bp' : Blueprint} {ext : ExtBlueprint}
    (hs : setup x = .ok bp) (ht : to_dict bp = .ok (ext, bp')) :
    round_trip x = .ok ext := by
  unfold round_trip
  simp only [hs, ht]

/-- C4 (corrected): for a valid external representation whose entity
records are pairwise value-distinct, constructing a Blueprint (`setup`,
which rehydrates each 1-based integer reference into an Association
wrapping the entity at list index integer-minus-1) and exporting it again
(`to_dict`) returns the representation itself, up to the documented
default-omission rules (`normalizeExt`; the snapping-grid offset is zero
after an import, so it drops out).  The distinctness hypothesis is
necessary and missing from the spec: resolution uses `list.index`, i.e.
Python value equality, so with two value-equal entities a reference to the
second exports as the number of the first
(`round_trip_breaks_on_value_equal_entities`). -/
theorem round_trip_up_to_normalization (x : ExtBlueprint)
    (hv : validExt x = true)
    (hd : distinctEntities (x.entities.getD []) = true) :
    setup x = .ok (importedBlueprint x) ∧
    to_dict (importedBlueprint x) = .ok (normalizeExt x, importedBlueprint x) ∧
    round_trip x = .ok (normalizeExt x) := by
  have hs := setup_ok hv
  have ht : to_dict (importedBlueprint x) =
      .ok (normalizeExt x, importedBlueprint x) := by
    have := to_dict_ok_intro (importedBlueprint x) (normalize_roundtrip hv hd)
    rwa [mkExtOutput_imported] at this
  exact ⟨hs, ht, round_trip_eq hs ht⟩

/-- `extDup` is valid but carries two value-equal chests; the round trip
yields `extDupOut`, whose pole references entity number 1 instead of 2, so
the exported representation is not the normalization of the input. -/
theorem round_trip_breaks_on_value_equal_entities :
    validExt extDup = true ∧
    round_trip extDup = .ok extDupOut ∧
    extDupOut ≠ normalizeExt extDup := by
  have hs : setup extDup = .ok bpDup := by decide
  have hn : normalize_internal_structure bpDup.entities bpDup.tiles
      bpDup.schedules = .ok (entsDup, [], []) := by decide
  have hmk : mkExtOutput bpDup entsDup [] [] = extDupOut := by
    unfold mkExtOutput
    rw [show bpDup.snappingGridPosition = (⟨0, 0⟩ : Vec2) from rfl,
      subtractEntityPos_zero, subtractTilePos_zero, List.map_id, List.map_id]
    decide
  have ht := to_dict_ok_intro bpDup hn
  rw [hmk] at ht
  exact ⟨by decide, round_trip_eq hs ht, by decide⟩

/-- Witness: `extRich` is valid with pairwise-distinct entities, and the
round trip reproduces it up to normalization. -/
theorem round_trip_up_to_normalization_witness :
    validExt extRich = true ∧
    distinctEntities (extRich.entities.getD []) = true ∧
    round_trip extRich = .ok (normalizeExt extRich) :=
  ⟨by decide, by decide,
   (round_trip_up_to_normalization extRich (by decide) (by decide)).2.2⟩

end Draftsman
